import Mathlib

/-!
Verification of the mcpl multiplexing daemon core (github.com/davebream/mcpl).

This file shallowly embeds the JSON-RPC codec, the ID mapper, the init cache,
the subscription tracker, the server-facing dispatcher, the shim-facing session
loop branches, the managed-server state machine with crash budget, and the
per-server serialization queue, translated from the Go sources under
internal/protocol and internal/daemon.  Machine integers (uint64 global IDs)
are modelled as Nat; raw JSON fragments (json.RawMessage) are modelled by an
explicit Json inductive; Go maps keyed by uint64 or string are modelled as
association lists with first-match lookup.  Wall-clock time (time.Time) is
modelled by Int timestamps passed explicitly.

The repository contains two divergent revisions of several core files; the
later revisions (the ones the specification describes) are embedded.  A few
functions of the latest revision are declared only through their tests and
callers in the sources; these are modelled from the specification and carry a
doc comment starting with "Modelled from the spec:".
-/

namespace Mcpl

/-- Raw JSON value, modelling Go `json.RawMessage` contents structurally.
Two raw fragments are "bit-identical" when they are equal in this type. -/
inductive Json where
  | null : Json
  | bool (b : Bool) : Json
  | num (n : Int) : Json
  | str (s : String) : Json
  | arr (elems : List Json) : Json
  | obj (fields : List (String × Json)) : Json


/-- First-match field lookup in a JSON object, modelling Go struct-field
unmarshalling of a single key. -/
def lookupField : List (String × Json) → String → Option Json
  | [], _ => none
  | (k, v) :: rest, key => if k = key then some v else lookupField rest key

/-- Modelling `json.Unmarshal(raw, &x)` for `x : uint64`: succeeds exactly on a
non-negative JSON integer; a missing raw fragment (nil RawMessage) fails. -/
def jsonUInt64 : Option Json → Option Nat
  | some (Json.num n) => if 0 ≤ n then some n.toNat else none
  | _ => none

/-- JSON-RPC 2.0 envelope, from internal/protocol/jsonrpc.go `Message`.
Go represents absent fields by nil `json.RawMessage` / empty string; here by
`none` / `""`. -/
structure Message where
  jsonrpc : String
  id : Option Json
  method : String
  params : Option Json
  result : Option Json
  error : Option Json


namespace Message

/-- Source `IsRequest`: has both id and method (jsonrpc.go). -/
def IsRequest (m : Message) : Bool :=
  m.id.isSome && m.method ≠ ""

/-- Source `IsResponse`: has id but no method (jsonrpc.go). -/
def IsResponse (m : Message) : Bool :=
  m.id.isSome && m.method = ""

/-- Source `IsNotification`: has method but no id (jsonrpc.go). -/
def IsNotification (m : Message) : Bool :=
  m.id.isNone && m.method ≠ ""

/-- Source `SetID` (jsonrpc.go). -/
def SetID (m : Message) (id : Option Json) : Message :=
  { m with id := id }

end Message

/-- Source `IDMapping` (jsonrpc.go): association between a global ID and the original
shim request. `CreatedAt` only feeds the GC and is omitted. -/
structure IDMapping where
  globalID : Nat
  originalID : Option Json
  sessionID : String


/-- First-match association-list lookup keyed by Nat (Go `map[uint64]`). -/
def natLookup {α : Type} : List (Nat × α) → Nat → Option α
  | [], _ => none
  | (k, v) :: rest, key => if k = key then some v else natLookup rest key

/-- Key removal in a Nat-keyed association list (Go `delete`). -/
def natErase {α : Type} (l : List (Nat × α)) (key : Nat) : List (Nat × α) :=
  l.filter (fun p => p.1 ≠ key)

/-- First-match association-list lookup keyed by String (Go `map[string]`). -/
def strLookup {α : Type} : List (String × α) → String → Option α
  | [], _ => none
  | (k, v) :: rest, key => if k = key then some v else strLookup rest key

/-- Source `IDMapper` (jsonrpc.go): monotonic counter plus the mapping table. -/
structure IDMapper where
  counter : Nat
  mappings : List (Nat × IDMapping)


namespace IDMapper

/-- Source `NewIDMapper` (jsonrpc.go). -/
def new : IDMapper := { counter := 0, mappings := [] }

/-- Source `Map` (jsonrpc.go): assigns the next counter value as global ID and
records the mapping. -/
def Map (m : IDMapper) (originalID : Option Json) (sessionID : String) :
    Nat × IDMapper :=
  let globalID := m.counter + 1
  (globalID,
   { counter := globalID,
     mappings :=
       (globalID, ⟨globalID, originalID, sessionID⟩) :: m.mappings })

/-- Source `Unmap` (jsonrpc.go): retrieves and removes the mapping for a global ID. -/
def Unmap (m : IDMapper) (globalID : Nat) : Option IDMapping × IDMapper :=
  match natLookup m.mappings globalID with
  | some mapping => (some mapping, { m with mappings := natErase m.mappings globalID })
  | none => (none, m)

/-- Modelled from the spec: `IDMapper.NextID` is declared only by its tests and
callers under src (the latest jsonrpc.go revision is absent).  Per spec §4.1 it
"allocates without recording a mapping" from the same monotonic counter, for
internal synthetic requests. -/
def NextID (m : IDMapper) : Nat × IDMapper :=
  (m.counter + 1, { m with counter := m.counter + 1 })

/-- Well-formedness: every mapped key was issued by the counter. -/
def WF (m : IDMapper) : Prop :=
  ∀ p ∈ m.mappings, p.1 ≤ m.counter

end IDMapper

/-- Source `rewriteRequestID` (internal/daemon/proxy.go): allocate a global ID, record
the mapping, overwrite the envelope id with the decimal global ID. -/
def rewriteRequestID (msg : Message) (mapper : IDMapper) (sessionID : String) :
    Nat × Message × IDMapper :=
  let (globalID, mapper') := mapper.Map msg.id sessionID
  (globalID, msg.SetID (some (Json.num globalID)), mapper')

/-- Source `rewriteResponseID` (internal/daemon/proxy.go): parse the global ID, unmap
it, restore the original raw id, return the owning session. -/
def rewriteResponseID (msg : Message) (mapper : IDMapper) :
    Except String (String × Message × IDMapper) :=
  match jsonUInt64 msg.id with
  | none => Except.error "parse global ID"
  | some globalID =>
    match mapper.Unmap globalID with
    | (none, _) => Except.error "no mapping for global ID"
    | (some mapping, mapper') =>
      Except.ok (mapping.sessionID, msg.SetID mapping.originalID, mapper')

/-- Daemon registries touched by the response path (internal/daemon dispatcher
revision in the sources): pendingInit, the init cache, the ID mapper and the
set of live session IDs. -/
structure DispatchState where
  pendingInit : List (Nat × String)
  initCache : List (String × Json)
  idMapper : IDMapper
  sessions : List String


/-- Source `InitCache.Store` (internal/protocol/mcp.go): overwriting insert. -/
def initCacheStore (cache : List (String × Json)) (serverName : String)
    (result : Json) : List (String × Json) :=
  (serverName, result) :: cache.filter (fun p => p.1 ≠ serverName)

/-- Source `dispatchResponse` (internal/daemon/dispatcher.go): cache an initialize
result when the raw global ID is in pendingInit, then unmap, restore the
original id and deliver to the owning session (drop if it disappeared).
Returns the new state, the at-most-one delivery `(sessionID, message)`, and
the global ID passed to `SignalSerializeWaiter` (0 when the id fails to parse,
mirroring the zero-valued `rawGlobalID`). -/
def dispatchResponse (d : DispatchState) (msg : Message) :
    DispatchState × Option (String × Message) × Nat :=
  let parsed := jsonUInt64 msg.id
  let rawGlobalID := parsed.getD 0
  let d1 :=
    match parsed with
    | some g =>
      match natLookup d.pendingInit g with
      | some serverName =>
        { d with pendingInit := natErase d.pendingInit g,
                 initCache :=
                   match msg.result with
                   | some r => initCacheStore d.initCache serverName r
                   | none => d.initCache }
      | none => d
    | none => d
  match rewriteResponseID msg d.idMapper with
  | Except.error _ => (d1, none, rawGlobalID)
  | Except.ok (sessionID, msg', mapper') =>
    ({ d1 with idMapper := mapper' },
     if sessionID ∈ d.sessions then some (sessionID, msg') else none,
     rawGlobalID)

/-! ### Subscription tracker (internal/protocol/mcp.go) -/

/-- Go set insertion `m[sessionID] = true` on a subscriber set. -/
def insertSid (l : List String) (sid : String) : List String :=
  if sid ∈ l then l else sid :: l

/-- Source `SubscriptionTracker` (mcp.go): `uri → set of session IDs`, modelled as an
association list of subscriber lists. -/
structure SubscriptionTracker where
  subscriptions : List (String × List String)

namespace SubscriptionTracker

def new : SubscriptionTracker := ⟨[]⟩

/-- Overwriting insert of one uri entry (Go map assignment). -/
def store (t : SubscriptionTracker) (uri : String) (subscribers : List String) :
    SubscriptionTracker :=
  ⟨(uri, subscribers) :: t.subscriptions.filter (fun p => p.1 ≠ uri)⟩

/-- Source `Subscribe` (mcp.go): add the session to the uri's set, return the new
count (1 = first subscriber). -/
def Subscribe (t : SubscriptionTracker) (uri sessionID : String) :
    Nat × SubscriptionTracker :=
  let current := (strLookup t.subscriptions uri).getD []
  let updated := insertSid current sessionID
  (updated.length, t.store uri updated)

/-- Source `Unsubscribe` (mcp.go): remove the session from the uri's set, return the
remaining count (0 = last subscriber gone; also 0 when the uri was absent). -/
def Unsubscribe (t : SubscriptionTracker) (uri sessionID : String) :
    Nat × SubscriptionTracker :=
  match strLookup t.subscriptions uri with
  | some sessions =>
    let remaining := sessions.filter (fun s => s ≠ sessionID)
    if remaining.isEmpty then
      (0, ⟨t.subscriptions.filter (fun p => p.1 ≠ uri)⟩)
    else
      (remaining.length, t.store uri remaining)
  | none => (0, t)

/-- Source `Subscribers` (mcp.go). -/
def Subscribers (t : SubscriptionTracker) (uri : String) : List String :=
  (strLookup t.subscriptions uri).getD []

/-- Kernel of `RemoveSession` (mcp.go): walk every uri entry, delete the
session; collect uris whose set became empty (orphans) and drop them. -/
def removeSessionList (sid : String) :
    List (String × List String) → List String × List (String × List String)
  | [] => ([], [])
  | (uri, sessions) :: rest =>
    let (orphans, rest') := removeSessionList sid rest
    if sid ∈ sessions then
      let remaining := sessions.filter (fun s => s ≠ sid)
      if remaining.isEmpty then (uri :: orphans, rest')
      else (orphans, (uri, remaining) :: rest')
    else (orphans, (uri, sessions) :: rest')

/-- Source `RemoveSession` (mcp.go): returns the orphaned uris and the new tracker. -/
def RemoveSession (t : SubscriptionTracker) (sid : String) :
    List String × SubscriptionTracker :=
  let (orphans, subs') := removeSessionList sid t.subscriptions
  (orphans, ⟨subs'⟩)

/-- Reference count of a uri. -/
def refcount (t : SubscriptionTracker) (uri : String) : Nat :=
  (t.Subscribers uri).length

/-- Tracker well-formedness: uri keys distinct, subscriber sets duplicate-free
and never stored empty (mcp.go deletes an entry when its set empties). -/
def WF (t : SubscriptionTracker) : Prop :=
  (t.subscriptions.map Prod.fst).Nodup ∧
    ∀ p ∈ t.subscriptions, p.2.Nodup ∧ p.2 ≠ []

end SubscriptionTracker

/-! ### Subscription-related session events
(sessionLoop subscribe/unsubscribe intercepts and the disconnect cleanup in
handleConnection, later daemon revision in the sources) -/

/-- A subscription-relevant occurrence: a session line carrying
`resources/subscribe` or `resources/unsubscribe` for a uri, or a session
disconnect. -/
inductive SubEvent where
  | subscribe (sid uri : String)
  | unsubscribe (sid uri : String)
  | disconnect (sid : String)

/-- Observable effect of handling one subscription event: a message forwarded
to the server (subscribe/unsubscribe for a uri, the disconnect path uses a
fresh `NextID` for its synthetic unsubscribe) or a local `{result:{}}` reply
to the session. -/
inductive SubOut where
  | fwdSubscribe (uri : String)
  | fwdUnsubscribe (uri : String)
  | localReply (sid : String)
deriving DecidableEq, Repr

/-- One step of the subscription discipline, transcribed from the sessionLoop
intercepts (count > 1 ⟹ local reply; count ≤ 1 ⟹ forward; remaining > 0 ⟹
local reply; remaining = 0 ⟹ forward) and from the handleConnection cleanup
(one synthetic `resources/unsubscribe` per orphaned uri). -/
def subStep (t : SubscriptionTracker) : SubEvent → SubscriptionTracker × List SubOut
  | SubEvent.subscribe sid uri =>
    let (count, t') := t.Subscribe uri sid
    if count > 1 then (t', [SubOut.localReply sid])
    else (t', [SubOut.fwdSubscribe uri])
  | SubEvent.unsubscribe sid uri =>
    let (count, t') := t.Unsubscribe uri sid
    if count > 0 then (t', [SubOut.localReply sid])
    else (t', [SubOut.fwdUnsubscribe uri])
  | SubEvent.disconnect sid =>
    let (orphans, t') := t.RemoveSession sid
    (t', orphans.map SubOut.fwdUnsubscribe)

/-- Run of the subscription discipline over a list of events, concatenating
the emitted effects. -/
def subRun (t : SubscriptionTracker) : List SubEvent → SubscriptionTracker × List SubOut
  | [] => (t, [])
  | e :: rest =>
    let (t', outs) := subStep t e
    let (t'', outs') := subRun t' rest
    (t'', outs ++ outs')

/-! ### Managed-server state machine and crash budget
(internal/daemon/server.go) -/

/-- Source `ServerState` (server.go). -/
inductive ServerState where
  | StateStopped
  | StateStarting
  | StateInitializing
  | StateReady
  | StateDraining
deriving DecidableEq, Repr

/-- Source `validTransitions` / `IsValidTransition` (server.go). -/
def IsValidTransition : ServerState → ServerState → Bool
  | ServerState.StateStopped, ServerState.StateStarting => true
  | ServerState.StateStarting, ServerState.StateInitializing => true
  | ServerState.StateStarting, ServerState.StateStopped => true
  | ServerState.StateInitializing, ServerState.StateReady => true
  | ServerState.StateInitializing, ServerState.StateStopped => true
  | ServerState.StateReady, ServerState.StateDraining => true
  | ServerState.StateDraining, ServerState.StateStopped => true
  | ServerState.StateDraining, ServerState.StateReady => true
  | _, _ => false

/-- Source `TransitionTo` (server.go): on an invalid pair return an error and keep
the current state; otherwise move to the new state.  The pair is (resulting
state, error message if any). -/
def TransitionTo (state newState : ServerState) : ServerState × Option String :=
  if IsValidTransition state newState then (newState, none)
  else (state, some "invalid state transition")

/-- Source `ForceStop` (server.go): sets STOPPED regardless of current state. -/
def ForceStop (_ : ServerState) : ServerState :=
  ServerState.StateStopped

/-- Source `maxCrashes` (server.go). -/
def maxCrashes : Nat := 3

/-- Source `crashWindow` (server.go), in seconds. -/
def crashWindow : Int := 60

/-- Source `RecordCrash` (server.go): append the current timestamp, then trim
timestamps outside the sliding window (`t.After(now - 60s)` keeps `t`). -/
def RecordCrash (crashes : List Int) (now : Int) : List Int :=
  (crashes ++ [now]).filter (fun t => t > now - crashWindow)

/-- Source `IsFailed` (server.go): at least `maxCrashes` recorded timestamps inside
the window ending now. -/
def IsFailed (crashes : List Int) (now : Int) : Bool :=
  if crashes.length < maxCrashes then false
  else maxCrashes ≤ (crashes.filter (fun t => t > now - crashWindow)).length

/-- Source `ResetCrashes` (server.go): clears the crash record. -/
def ResetCrashes : List Int := []

/-- Start gate of `ensureServerRunning` (later daemon revision in the
sources): a failed server rejects the start attempt with an error; otherwise
the server transitions STOPPED→STARTING. -/
def ensureServerRunningGate (crashes : List Int) (now : Int)
    (state : ServerState) : ServerState × Option String :=
  if IsFailed crashes now then (state, some "server has failed (too many crashes)")
  else TransitionTo state ServerState.StateStarting

/-! ### Handshake (internal/protocol/handshake.go and
handleConnection in the later daemon revision) -/

/-- Source `ConnectRequest` (handshake.go). -/
structure ConnectRequest where
  mcpl : Int
  type : String
  server : String

/-- Source `ValidateHandshake` (handshake.go): version first, then type, then
non-empty server name; `none` means valid. -/
def ValidateHandshake (req : ConnectRequest) (protocolVersion : Int) :
    Option String :=
  if req.mcpl ≠ protocolVersion then some "protocol version mismatch"
  else if req.type ≠ "connect" then some "invalid handshake type"
  else if req.server = "" then some "server name is required in connect request"
  else none

/-- The single line written back for a handshake: an error envelope with a
code, or the connected envelope. -/
inductive HandshakeReply where
  | errorEnvelope (code : String) (message : String)
  | connected (status : String)
deriving DecidableEq, Repr

/-- Error-code selection of `handleConnection` (later daemon revision in the
sources): first line fails to unmarshal → `invalid_request`;
`ValidateHandshake` rejects → `protocol_error`; named server not registered
(absent from config or unmanaged) → `unknown_server`; subprocess start fails →
`start_failed`; otherwise the connected envelope.  `line = none` models a
first line that is not valid handshake JSON; `startError` models the outcome
of `ensureServerRunning` when the server must be spawned. -/
def handleConnectionHandshake (line : Option ConnectRequest)
    (managedServers : List String) (startError : Option String) :
    HandshakeReply :=
  match line with
  | none => HandshakeReply.errorEnvelope "invalid_request" "invalid handshake JSON"
  | some req =>
    match ValidateHandshake req 1 with
    | some errMsg => HandshakeReply.errorEnvelope "protocol_error" errMsg
    | none =>
      if req.server ∈ managedServers then
        match startError with
        | some e => HandshakeReply.errorEnvelope "start_failed" e
        | none => HandshakeReply.connected "ready"
      else HandshakeReply.errorEnvelope "unknown_server" "server not found in config"

/-! ### Stdin write discipline (server.go `WriteToStdin`) -/

/-- Source `WriteToStdin` of the server.go revision under src: under the per-server
lock, build `data ++ '\n'` and write it; error when stdin is unavailable.
Bytes are Nats, newline is 10. -/
def WriteToStdin (stdinAvailable : Bool) (data : List Nat) :
    Except String (List Nat) :=
  if stdinAvailable then Except.ok (data ++ [10])
  else Except.error "stdin not available"

/-- State of a server's stdin pipe for the deadline model. -/
structure StdinPipe where
  available : Bool

/-- Modelled from the spec: the latest server.go revision (the one the
serialize queue and `SignalSerializeWaiter` callers compile against) is absent
from src; per spec §4.2 its stdin writes are single-line writes terminated by
one newline under the per-server lock with a 10 s deadline — on expiry the
stdin pipe is closed and the error returned so the caller can abandon the
request.  `withinDeadline` states whether the write completed within 10 s. -/
def WriteToStdinDeadline (p : StdinPipe) (data : List Nat)
    (withinDeadline : Bool) : StdinPipe × Except String (List Nat) :=
  if ¬p.available then (p, Except.error "stdin not available")
  else if withinDeadline then (p, Except.ok (data ++ [10]))
  else ({ available := false }, Except.error "stdin write deadline exceeded")

/-! ### roots/list fan-out (internal/daemon/dispatcher.go) -/

/-- Source `SessionCapabilities`-carrying view of a session used by the fan-out
(Session.ID plus the negotiated `roots`/`sampling` booleans). -/
structure SessionInfo where
  sid : String
  Roots : Bool
  Sampling : Bool

/-- Modelling `json.Unmarshal(result, &struct{ Roots []json.RawMessage })` in
`rootsAggregator.collect`: an object yields its (possibly absent) `roots`
array; a non-object or an ill-typed `roots` field unmarshals nothing. -/
def parseRootsResult : Option Json → List Json
  | some (Json.obj fields) =>
    match lookupField fields "roots" with
    | some (Json.arr elems) => elems
    | _ => []
  | some Json.null => []
  | _ => []

/-- Modelling `json.Unmarshal(root, &struct{ URI string })` in
`rootsAggregator.finalize`: object with a string (or absent, or null) `uri`
succeeds; a non-object or ill-typed `uri` errors and the root is skipped. -/
def rootURI : Json → Option String
  | Json.null => some ""
  | Json.obj fields =>
    match lookupField fields "uri" with
    | none => some ""
    | some (Json.str s) => some s
    | some Json.null => some ""
    | some _ => none
  | _ => none

/-- Source `rootsAggregator` (dispatcher.go): server's original id, count of capable
sessions still to answer, collected root objects, idempotence flag. -/
structure rootsAggregator where
  serverID : Option Json
  remaining : Int
  roots : List Json
  done : Bool

namespace rootsAggregator

/-- Source `collect` (dispatcher.go): merge one session's `result.roots`, decrement
`remaining`; returns true when all sessions have responded.  A no-op after
`done`. -/
def collect (a : rootsAggregator) (result : Option Json) :
    rootsAggregator × Bool :=
  if a.done then (a, false)
  else
    let a' := { a with roots := a.roots ++ parseRootsResult result,
                       remaining := a.remaining - 1 }
    (a', decide (a'.remaining ≤ 0))

/-- The dedup loop of `finalize` (dispatcher.go): keep each root whose uri
parses and was not seen before, in order. -/
def dedupGo (seen : List String) : List Json → List Json
  | [] => []
  | root :: rest =>
    match rootURI root with
    | some u =>
      if u ∈ seen then dedupGo seen rest
      else root :: dedupGo (u :: seen) rest
    | none => dedupGo seen rest

/-- Deduplicate collected roots by uri (dispatcher.go `finalize`). -/
def dedupRoots (roots : List Json) : List Json := dedupGo [] roots

/-- Source `finalize` (dispatcher.go): once, assemble `{"roots": unique}` under the
server's original id and send it to the server; `none` on a repeat call. -/
def finalize (a : rootsAggregator) : rootsAggregator × Option Message :=
  if a.done then (a, none)
  else
    ({ a with done := true },
     some { jsonrpc := "2.0", id := a.serverID, method := "", params := none,
            result := some (Json.obj [("roots", Json.arr (dedupRoots a.roots))]),
            error := none })

end rootsAggregator

/-- Folding `collect` over a list of session responses (the pendingFanout
intercept in sessionLoop hands each response's `result` to the aggregator). -/
def collectList (a : rootsAggregator) : List (Option Json) → rootsAggregator
  | [] => a
  | r :: rest => collectList (a.collect r).1 rest

/-- The uris of a list of root objects (those that parse). -/
def urisOf (roots : List Json) : List String := roots.filterMap rootURI

/-- Result of `handleRootsList` (dispatcher.go): either an immediate reply to
the server (no capable session) or an aggregator, the pendingFanout ids, and
one synthesized `roots/list` per capable session. -/
structure RootsFanout where
  idMapper : IDMapper
  pendingFanout : List Nat
  agg : Option rootsAggregator
  sends : List (String × Message)
  serverReply : Option Message

/-- The per-capable-session loop of `handleRootsList`: allocate a fresh
fanout id via `NextID`, register it in pendingFanout, synthesize
`{id: fanoutID, method: "roots/list"}` for the session. -/
def fanoutLoop (mapper : IDMapper) :
    List SessionInfo → IDMapper × List Nat × List (String × Message)
  | [] => (mapper, [], [])
  | s :: rest =>
    let (fanoutID, mapper') := mapper.NextID
    let (mapperF, ids, sends) := fanoutLoop mapper' rest
    (mapperF, fanoutID :: ids,
     (s.sid, { jsonrpc := "2.0", id := some (Json.num fanoutID),
               method := "roots/list", params := none, result := none,
               error := none }) :: sends)

/-- Source `handleRootsList` (dispatcher.go): filter the server's sessions to those
with the roots capability; none → immediate `{"roots":[]}` under the server's
original id; otherwise create the aggregator (remaining = capable count) and
fan out one synthesized request per capable session. -/
def handleRootsList (msg : Message) (sessions : List SessionInfo)
    (mapper : IDMapper) : RootsFanout :=
  let capable := sessions.filter (fun s => s.Roots)
  if capable.isEmpty then
    { idMapper := mapper, pendingFanout := [], agg := none, sends := [],
      serverReply := some
        { jsonrpc := "2.0", id := msg.id, method := "", params := none,
          result := some (Json.obj [("roots", Json.arr [])]), error := none } }
  else
    let (mapper', ids, sends) := fanoutLoop mapper capable
    { idMapper := mapper', pendingFanout := ids,
      agg := some { serverID := msg.id, remaining := Int.ofNat capable.length,
                    roots := [], done := false },
      sends := sends, serverReply := none }

/-! ### Initialize interception and caching, one server
(sessionLoop initialize branch and the dispatchResponse pendingInit branch of
the later daemon revision in the sources) -/

/-- State of the initialize machinery for one server: the shared ID mapper,
the server's init-cache entry, and the pendingInit global ids. -/
structure InitState where
  idMapper : IDMapper
  initCache : Option Json
  pendingInit : List Nat

/-- An initialize-relevant occurrence: a session's `initialize` request (with
its raw original id), or the server's response to global id `gid`. -/
inductive InitEvent where
  | sessInit (sid : String) (origID : Json)
  | serverResp (gid : Nat) (result : Json)

/-- Observable effect: the initialize forwarded to the server under a global
id; a local reply serving the cached result under the session's own id; or a
response routed back through the ID mapper. -/
inductive InitOut where
  | forwardInit (gid : Nat)
  | replyCached (sid : String) (origID : Json) (result : Json)
  | replyMapped (sid : String) (origID : Option Json) (result : Json)

/-- Whether an effect is a forward of `initialize` to the server. -/
def InitOut.isForward : InitOut → Bool
  | InitOut.forwardInit _ => true
  | _ => false

/-- sessionLoop `initialize` intercept (later daemon revision): cache hit →
synthesize the cached result under the session's original id, forward
nothing; cache miss → rewrite the id to a fresh global id, record it in
pendingInit, forward to the server. -/
def initSessStep (st : InitState) (sid : String) (origID : Json) :
    InitState × List InitOut :=
  match st.initCache with
  | some cached => (st, [InitOut.replyCached sid origID cached])
  | none =>
    let (gid, _fwd, mapper') :=
      rewriteRequestID
        { jsonrpc := "2.0", id := some origID, method := "initialize",
          params := none, result := none, error := none } st.idMapper sid
    ({ idMapper := mapper', initCache := none,
       pendingInit := gid :: st.pendingInit },
     [InitOut.forwardInit gid])

/-- Source `dispatchResponse` restricted to the initialize bookkeeping of one
server: if the raw global id is in pendingInit, store the result in the
cache and clear the entry; then unmap and route the response back. -/
def initRespStep (st : InitState) (gid : Nat) (result : Json) :
    InitState × List InitOut :=
  let isInitResp := gid ∈ st.pendingInit
  let pending' := st.pendingInit.filter (fun g => g ≠ gid)
  let cache' := if isInitResp then some result else st.initCache
  let (found, mapper') := st.idMapper.Unmap gid
  ({ idMapper := mapper', initCache := cache', pendingInit := pending' },
   match found with
   | some mapping =>
     [InitOut.replyMapped mapping.sessionID mapping.originalID result]
   | none => [])

/-- One initialize-machinery step. -/
def initStep (st : InitState) : InitEvent → InitState × List InitOut
  | InitEvent.sessInit sid origID => initSessStep st sid origID
  | InitEvent.serverResp gid result => initRespStep st gid result

/-- Run of the initialize machinery over a list of events. -/
def initRun (st : InitState) : List InitEvent → InitState × List InitOut
  | [] => (st, [])
  | e :: rest =>
    let (st', outs) := initStep st e
    let (st'', outs') := initRun st' rest
    (st'', outs ++ outs')

/-! ### Serialization queue, one server
(SerializeQueue.processLoop in serialize.go; the enqueue/waiter wiring of the
sessionLoop in the later daemon revision, which registers each request's
waiter channel in `serializeWaiters` at enqueue time, before the entry
executes; the waiter signalling of dispatchResponse; and the crash-recovery
drain of the later daemon revision, which closes every channel left in
`serializeWaiters` — the in-flight entry's and those of entries still
queued.) -/

/-- Serialization state of one server: the FIFO of enqueued request global
ids whose entries have not executed yet; the in-flight entry — written to
stdin, its closure blocked on its still-open waiter channel, which keeps
`processLoop` from running the next entry; and the global ids whose waiter
channel was closed before their entry executed (by the crash drain, or by a
signal carrying their id) — such an entry, when it runs, writes to stdin and
returns at once, because receiving from a closed channel is immediate. -/
structure SerializeState where
  queued : List Nat
  inflight : Option Nat
  released : List Nat

/-- A serialization-relevant occurrence: a session request enqueued for this
server; a response observed for global id `gid` (dispatchResponse signals
that id's waiter unconditionally); a server crash (the crash monitor closes
every waiter in `serializeWaiters`, queued entries' included — the shutdown
drain of CloseSerializeQueue closes waiters the same way). -/
inductive SerEvent where
  | enqueue (gid : Nat)
  | respond (gid : Nat)
  | crash

/-- Observable serialization effect: the request's bytes written to the
server's stdin, or the request's waiter channel closed. -/
inductive SerItem where
  | write (gid : Nat)
  | release (gid : Nat)
deriving DecidableEq, Repr

/-- Source `processLoop` dequeuing: with nothing in flight, run queued
entries in order; an entry writes to stdin and then blocks on its waiter if
the waiter is still open (becoming the in-flight entry, stopping the loop),
or returns at once if its waiter was already closed.  Returns the new
in-flight entry, the remaining queue, the remaining already-closed ids and
the writes performed. -/
def serRunQueue (released : List Nat) :
    List Nat → Option Nat × List Nat × List Nat × List SerItem
  | [] => (none, [], released, [])
  | g :: rest =>
    if g ∈ released then
      let (inf, q, rel, outs) := serRunQueue (released.erase g) rest
      (inf, q, rel, SerItem.write g :: outs)
    else (some g, rest, released, [SerItem.write g])

/-- The queued half of the crash drain (the crash monitor of the later
daemon revision iterates `serializeWaiters` and closes every channel): one
release per queued entry whose waiter is still open, each becoming a closed
waiter its entry will find when it runs. -/
def drainQueued (released : List Nat) : List Nat → List Nat × List SerItem
  | [] => (released, [])
  | g :: rest =>
    if g ∈ released then drainQueued released rest
    else
      let (rel, outs) := drainQueued (g :: released) rest
      (rel, SerItem.release g :: outs)

/-- Modelled from the spec: the waiter half of one serialization step —
`SignalSerializeWaiter`'s definition belongs to the latest server.go
revision absent from src; its call sites and spec §4.2/§4.5 fix it as
closing the waiter channel registered for the given global id, whichever
entry owns it.  The dequeue half mirrors `SerializeQueue.processLoop`
(serialize.go) and the sessionLoop enqueue wiring; the crash case mirrors
the crash monitor of the later daemon revision, which closes every pending
waiter — the in-flight entry's and queued entries' alike — after which the
drained queued entries write straight through without blocking. -/
def serStep (s : SerializeState) : SerEvent → SerializeState × List SerItem
  | SerEvent.enqueue g =>
    match s.inflight with
    | some _ => ({ s with queued := s.queued ++ [g] }, [])
    | none =>
      let (inf, q, rel, outs) := serRunQueue s.released (s.queued ++ [g])
      (⟨q, inf, rel⟩, outs)
  | SerEvent.respond g =>
    match s.inflight with
    | some cur =>
      if cur = g then
        let (inf, q, rel, outs) := serRunQueue s.released s.queued
        (⟨q, inf, rel⟩, SerItem.release g :: outs)
      else if g ∈ s.queued ∧ g ∉ s.released then
        ({ s with released := g :: s.released }, [SerItem.release g])
      else (s, [])
    | none =>
      if g ∈ s.queued ∧ g ∉ s.released then
        ({ s with released := g :: s.released }, [SerItem.release g])
      else (s, [])
  | SerEvent.crash =>
    let (rel1, relOuts) := drainQueued s.released s.queued
    let (inf, q, rel2, wouts) := serRunQueue rel1 s.queued
    match s.inflight with
    | some cur => (⟨q, inf, rel2⟩, SerItem.release cur :: relOuts ++ wouts)
    | none => (⟨q, inf, rel2⟩, relOuts ++ wouts)

/-- Run of the serialization machinery over a list of events. -/
def serRun (s : SerializeState) : List SerEvent → SerializeState × List SerItem
  | [] => (s, [])
  | e :: rest =>
    let (s', outs) := serStep s e
    let (s'', outs') := serRun s' rest
    (s'', outs ++ outs')

/-- Which path a message takes to the server's stdin (sessionLoop of the
later daemon revision): requests of a serialized server go through the
queue; everything else — notifications in particular — is written directly. -/
inductive SubmitPath where
  | enqueued
  | direct
deriving DecidableEq, Repr

/-- The submit decision `server.serializeQueue != nil && msg.IsRequest()`. -/
def submitToServer (hasSerializeQueue : Bool) (isRequest : Bool) : SubmitPath :=
  if hasSerializeQueue && isRequest then SubmitPath.enqueued else SubmitPath.direct

/-- Concatenation of the parsed `result.roots` arrays of a list of session
responses (the roots the aggregator accumulates across `collect` calls). -/
def parsedRootsJoin : List (Option Json) → List Json
  | [] => []
  | r :: rest => parseRootsResult r ++ parsedRootsJoin rest

/-- The transition table of the specification §3 as an edge list. -/
def validEdges : List (ServerState × ServerState) :=
  [(ServerState.StateStopped, ServerState.StateStarting),
   (ServerState.StateStarting, ServerState.StateInitializing),
   (ServerState.StateStarting, ServerState.StateStopped),
   (ServerState.StateInitializing, ServerState.StateReady),
   (ServerState.StateInitializing, ServerState.StateStopped),
   (ServerState.StateReady, ServerState.StateDraining),
   (ServerState.StateDraining, ServerState.StateStopped),
   (ServerState.StateDraining, ServerState.StateReady)]

/-- Valid serialization traces, tracked by a pair (pending, pre): `pending`
is the request written to stdin whose waiter is still open (the in-flight
entry, at most one), `pre` the requests whose waiter was released before
their write.  A write happens only with no pending request, and either opens
a pending entry or consumes a pre-release; a release either clears the
pending entry (its response signalled, or the crash drain) or pre-releases a
not-yet-written one (the crash drain on a queued entry). -/
inductive SerAuto :
    Option Nat → List Nat → List SerItem → Option Nat → List Nat → Prop where
  | nil (p : Option Nat) (pre : List Nat) : SerAuto p pre [] p pre
  | wOpen {pre : List Nat} {t : List SerItem} {p' : Option Nat}
      {pre' : List Nat} (g : Nat) :
      SerAuto (some g) pre t p' pre' →
      SerAuto none pre (SerItem.write g :: t) p' pre'
  | wPre {pre : List Nat} {t : List SerItem} {p' : Option Nat}
      {pre' : List Nat} (g : Nat) (hg : g ∈ pre) :
      SerAuto none (pre.erase g) t p' pre' →
      SerAuto none pre (SerItem.write g :: t) p' pre'
  | rel {pre : List Nat} {t : List SerItem} {p' : Option Nat}
      {pre' : List Nat} (g : Nat) :
      SerAuto none pre t p' pre' →
      SerAuto (some g) pre (SerItem.release g :: t) p' pre'
  | relPre {p : Option Nat} {pre : List Nat} {t : List SerItem}
      {p' : Option Nat} {pre' : List Nat} (g : Nat) :
      SerAuto p (g :: pre) t p' pre' →
      SerAuto p pre (SerItem.release g :: t) p' pre'


/-! ## Theorems -/

theorem jsonUInt64_natCast (g : Nat) :
    jsonUInt64 (some (Json.num (g : Int))) = some g := by
  simp [jsonUInt64]

/-- Claim C1: a session request forwarded to the server carries a fresh
integer global id — the successor of the mapper counter, distinct from every
currently mapped id — and the server's response under that global id is
delivered to exactly the originating session (the delivery target is unique),
carrying the request's original raw id bytes and the server's result and
error fields unchanged. -/
theorem c1_id_remap_roundtrip
    (m : IDMapper) (hwf : m.WF) (S : String) (req resp : Message)
    (pending : List (Nat × String)) (cache : List (String × Json))
    (sessions : List String) (hS : S ∈ sessions)
    (hid : resp.id = some (Json.num ((rewriteRequestID req m S).1))) :
    (rewriteRequestID req m S).2.1.id = some (Json.num (m.counter + 1)) ∧
    (rewriteRequestID req m S).1 = m.counter + 1 ∧
    (∀ p ∈ m.mappings, p.1 < m.counter + 1) ∧
    (dispatchResponse
        ⟨pending, cache, (rewriteRequestID req m S).2.2, sessions⟩ resp).2
      = (some (S, resp.SetID req.id), m.counter + 1) ∧
    (resp.SetID req.id).id = req.id ∧
    (resp.SetID req.id).result = resp.result ∧
    (resp.SetID req.id).error = resp.error := by
  have hfresh : ∀ p ∈ m.mappings, p.1 < m.counter + 1 := by
    intro p hp
    exact Nat.lt_succ_of_le (hwf p hp)
  have hrw : (rewriteRequestID req m S).1 = m.counter + 1 := rfl
  rw [hrw] at hid
  refine ⟨rfl, rfl, hfresh, ?_, rfl, rfl, rfl⟩
  simp only [dispatchResponse, rewriteResponseID, rewriteRequestID,
    IDMapper.Map, IDMapper.Unmap, natLookup, hid, jsonUInt64_natCast,
    Option.getD_some]
  simp [hS, Message.SetID]

/-- Witness for C1 at a concrete input: counter 0, string id `"abc"`,
session `"S"`. -/
theorem c1_id_remap_roundtrip_witness :
    (IDMapper.new.WF ∧ "S" ∈ ["S"] ∧
      (Message.mk "2.0" (some (Json.num 1)) "" none
          (some (Json.str "ok")) none).id
        = some (Json.num ((rewriteRequestID
            (Message.mk "2.0" (some (Json.str "abc")) "tools/list" none none none)
            IDMapper.new "S").1))) ∧
    ((rewriteRequestID
        (Message.mk "2.0" (some (Json.str "abc")) "tools/list" none none none)
        IDMapper.new "S").2.1.id
      = some (Json.num (IDMapper.new.counter + 1)) ∧
      (rewriteRequestID
        (Message.mk "2.0" (some (Json.str "abc")) "tools/list" none none none)
        IDMapper.new "S").1 = IDMapper.new.counter + 1 ∧
      (∀ p ∈ IDMapper.new.mappings, p.1 < IDMapper.new.counter + 1) ∧
      (dispatchResponse
          ⟨[], [],
           (rewriteRequestID
             (Message.mk "2.0" (some (Json.str "abc")) "tools/list" none none none)
             IDMapper.new "S").2.2, ["S"]⟩
          (Message.mk "2.0" (some (Json.num 1)) "" none
            (some (Json.str "ok")) none)).2
        = (some ("S",
            (Message.mk "2.0" (some (Json.num 1)) "" none
              (some (Json.str "ok")) none).SetID
              (Message.mk "2.0" (some (Json.str "abc")) "tools/list" none none none).id),
           IDMapper.new.counter + 1) ∧
      ((Message.mk "2.0" (some (Json.num 1)) "" none
          (some (Json.str "ok")) none).SetID
          (Message.mk "2.0" (some (Json.str "abc")) "tools/list" none none none).id).id
        = (Message.mk "2.0" (some (Json.str "abc")) "tools/list" none none none).id ∧
      ((Message.mk "2.0" (some (Json.num 1)) "" none
          (some (Json.str "ok")) none).SetID
          (Message.mk "2.0" (some (Json.str "abc")) "tools/list" none none none).id).result
        = (Message.mk "2.0" (some (Json.num 1)) "" none
            (some (Json.str "ok")) none).result ∧
      ((Message.mk "2.0" (some (Json.num 1)) "" none
          (some (Json.str "ok")) none).SetID
          (Message.mk "2.0" (some (Json.str "abc")) "tools/list" none none none).id).error
        = (Message.mk "2.0" (some (Json.num 1)) "" none
            (some (Json.str "ok")) none).error) :=
  ⟨⟨by intro p hp; simp [IDMapper.new] at hp, by simp, rfl⟩,
   c1_id_remap_roundtrip IDMapper.new
     (by intro p hp; simp [IDMapper.new] at hp) "S"
     (Message.mk "2.0" (some (Json.str "abc")) "tools/list" none none none)
     (Message.mk "2.0" (some (Json.num 1)) "" none (some (Json.str "ok")) none)
     [] [] ["S"] (by simp) rfl⟩

/-- Claim C6, counterexample: `ForceStop` — used by crash recovery — moves a
READY server to STOPPED although READY→STOPPED is not an edge of the table,
so not every state change travels along the table's edges. -/
theorem c6_counterexample :
    ForceStop ServerState.StateReady = ServerState.StateStopped ∧
    IsValidTransition ServerState.StateReady ServerState.StateStopped = false ∧
    (ServerState.StateReady, ServerState.StateStopped) ∉ validEdges := by
  decide

/-- Claim C6, amended: `TransitionTo` changes state exactly along the eight
table edges and returns an error leaving the state unchanged on any other
pair; `ForceStop`, however, unconditionally sets STOPPED, so crash recovery
may leave the table (e.g. READY→STOPPED). -/
theorem c6_transitions (s t : ServerState) :
    (IsValidTransition s t = true ↔ (s, t) ∈ validEdges) ∧
    (IsValidTransition s t = false →
      TransitionTo s t = (s, some "invalid state transition")) ∧
    (IsValidTransition s t = true → TransitionTo s t = (t, none)) ∧
    ForceStop s = ServerState.StateStopped := by
  cases s <;> cases t <;> decide

/-- Witness for C6 at a concrete pair. -/
theorem c6_transitions_witness :
    (IsValidTransition ServerState.StateReady ServerState.StateStopped = true ↔
      (ServerState.StateReady, ServerState.StateStopped) ∈ validEdges) ∧
    (IsValidTransition ServerState.StateReady ServerState.StateStopped = false →
      TransitionTo ServerState.StateReady ServerState.StateStopped
        = (ServerState.StateReady, some "invalid state transition")) ∧
    (IsValidTransition ServerState.StateReady ServerState.StateStopped = true →
      TransitionTo ServerState.StateReady ServerState.StateStopped
        = (ServerState.StateStopped, none)) ∧
    ForceStop ServerState.StateReady = ServerState.StateStopped :=
  c6_transitions ServerState.StateReady ServerState.StateStopped

/-- Claim C7, counterexample: three crashes at times 0, 1, 2 mark the server
failed at time 2, yet a start attempt at time 100 — with no `ResetCrashes` in
between — succeeds, because the 60-second window slides past the crashes.
So start attempts do not keep failing "until ResetCrashes is called". -/
theorem c7_counterexample :
    IsFailed (RecordCrash (RecordCrash (RecordCrash [] 0) 1) 2) 2 = true ∧
    (ensureServerRunningGate (RecordCrash (RecordCrash (RecordCrash [] 0) 1) 2)
        2 ServerState.StateStopped).2.isSome = true ∧
    IsFailed (RecordCrash (RecordCrash (RecordCrash [] 0) 1) 2) 100 = false ∧
    ensureServerRunningGate (RecordCrash (RecordCrash (RecordCrash [] 0) 1) 2)
        100 ServerState.StateStopped = (ServerState.StateStarting, none) := by
  decide

/-- Claim C7, amended: after three crashes recorded inside the sliding
60-second window the server is failed, and every start attempt made while
the three crash timestamps still lie within 60 s of the attempt returns a
failed-server error leaving the state unchanged; `ResetCrashes` clears the
record, after which a start attempt is allowed again (as it also is once the
window has slid past the crashes). -/
theorem c7_crash_budget (t1 t2 t3 now now2 : Int) (st : ServerState)
    (h12 : t1 ≤ t2) (h23 : t2 ≤ t3) (hwin : t3 - t1 < crashWindow)
    (hnow : now - crashWindow < t1) :
    RecordCrash (RecordCrash (RecordCrash [] t1) t2) t3 = [t1, t2, t3] ∧
    IsFailed [t1, t2, t3] now = true ∧
    (ensureServerRunningGate [t1, t2, t3] now st).1 = st ∧
    (ensureServerRunningGate [t1, t2, t3] now st).2
      = some "server has failed (too many crashes)" ∧
    IsFailed ResetCrashes now2 = false ∧
    ensureServerRunningGate ResetCrashes now2 ServerState.StateStopped
      = (ServerState.StateStarting, none) := by
  have hw : crashWindow = 60 := rfl
  rw [hw] at hwin hnow
  have e1 : RecordCrash [] t1 = [t1] := by
    unfold RecordCrash crashWindow
    have h : t1 > t1 - 60 := by omega
    simp [List.filter_cons, h]
  have e2 : RecordCrash [t1] t2 = [t1, t2] := by
    unfold RecordCrash crashWindow
    have ha : t1 > t2 - 60 := by omega
    have hb : t2 > t2 - 60 := by omega
    simp [List.filter_cons, ha, hb]
  have e3 : RecordCrash [t1, t2] t3 = [t1, t2, t3] := by
    unfold RecordCrash crashWindow
    have ha : t1 > t3 - 60 := by omega
    have hb : t2 > t3 - 60 := by omega
    have hc : t3 > t3 - 60 := by omega
    simp [List.filter_cons, ha, hb, hc]
  have efail : IsFailed [t1, t2, t3] now = true := by
    unfold IsFailed maxCrashes crashWindow
    have ha : t1 > now - 60 := by omega
    have hb : t2 > now - 60 := by omega
    have hc : t3 > now - 60 := by omega
    simp [List.filter_cons, ha, hb, hc]
  refine ⟨by rw [e1, e2, e3], efail, ?_, ?_, rfl, rfl⟩
  · unfold ensureServerRunningGate
    simp [efail]
  · unfold ensureServerRunningGate
    simp [efail]

/-- Witness for C7 at concrete times 0 ≤ 1 ≤ 2, checked at times 2 and 100. -/
theorem c7_crash_budget_witness :
    ((0 : Int) ≤ 1 ∧ (1 : Int) ≤ 2 ∧ (2 : Int) - 0 < crashWindow ∧
      (2 : Int) - crashWindow < 0) ∧
    (RecordCrash (RecordCrash (RecordCrash [] 0) 1) 2 = [0, 1, 2] ∧
      IsFailed [0, 1, 2] 2 = true ∧
      (ensureServerRunningGate [0, 1, 2] 2 ServerState.StateStopped).1
        = ServerState.StateStopped ∧
      (ensureServerRunningGate [0, 1, 2] 2 ServerState.StateStopped).2
        = some "server has failed (too many crashes)" ∧
      IsFailed ResetCrashes 100 = false ∧
      ensureServerRunningGate ResetCrashes 100 ServerState.StateStopped
        = (ServerState.StateStarting, none)) :=
  ⟨by refine ⟨by decide, by decide, by decide, by decide⟩,
   c7_crash_budget 0 1 2 2 100 ServerState.StateStopped
     (by decide) (by decide) (by decide) (by decide)⟩

/-- Claim C8, counterexample: a first line whose `type` field is wrong (valid
JSON, correct version) is answered with code `protocol_error`, not the
claimed `invalid_request` — `ValidateHandshake` folds the type check into the
protocol-error path. -/
theorem c8_counterexample :
    handleConnectionHandshake
        (some (ConnectRequest.mk 1 "disconnect" "x")) ["x"] none
      = HandshakeReply.errorEnvelope "protocol_error" "invalid handshake type" ∧
    ("protocol_error" : String) ≠ "invalid_request" := by
  constructor
  · rfl
  · decide

/-- Claim C8, amended: exactly one envelope is written for a failed
handshake; its code is `invalid_request` when the first line is not valid
handshake JSON, `protocol_error` when `ValidateHandshake` rejects (version
mismatch, wrong `type` field, or empty server name), `unknown_server` when
the named server is not a registered managed server, and `start_failed` when
the subprocess fails to spawn; otherwise the connected envelope follows. -/
theorem c8_handshake_codes (req : ConnectRequest) (servers : List String)
    (startError : Option String) :
    handleConnectionHandshake none servers startError
      = HandshakeReply.errorEnvelope "invalid_request" "invalid handshake JSON" ∧
    (ValidateHandshake req 1 = none ↔
      (req.mcpl = 1 ∧ req.type = "connect" ∧ req.server ≠ "")) ∧
    (∀ v, ValidateHandshake req 1 = some v →
      handleConnectionHandshake (some req) servers startError
        = HandshakeReply.errorEnvelope "protocol_error" v) ∧
    (ValidateHandshake req 1 = none → req.server ∉ servers →
      handleConnectionHandshake (some req) servers startError
        = HandshakeReply.errorEnvelope "unknown_server" "server not found in config") ∧
    (∀ e, ValidateHandshake req 1 = none → req.server ∈ servers →
      startError = some e →
      handleConnectionHandshake (some req) servers startError
        = HandshakeReply.errorEnvelope "start_failed" e) ∧
    (ValidateHandshake req 1 = none → req.server ∈ servers →
      startError = none →
      handleConnectionHandshake (some req) servers startError
        = HandshakeReply.connected "ready") := by
  refine ⟨rfl, ?_, ?_, ?_, ?_, ?_⟩
  · unfold ValidateHandshake
    split_ifs with h1 h2 h3 <;> simp_all
  · intro v hv
    simp [handleConnectionHandshake, hv]
  · intro hv hns
    simp [handleConnectionHandshake, hv, hns]
  · intro e hv hs hse
    simp [handleConnectionHandshake, hv, hs, hse]
  · intro hv hs hse
    simp [handleConnectionHandshake, hv, hs, hse]

/-- Witness for C8 at a concrete valid request. -/
theorem c8_handshake_codes_witness :
    (handleConnectionHandshake none ["x"] none
      = HandshakeReply.errorEnvelope "invalid_request" "invalid handshake JSON" ∧
    (ValidateHandshake (ConnectRequest.mk 1 "connect" "x") 1 = none ↔
      ((ConnectRequest.mk 1 "connect" "x").mcpl = 1 ∧
        (ConnectRequest.mk 1 "connect" "x").type = "connect" ∧
        (ConnectRequest.mk 1 "connect" "x").server ≠ "")) ∧
    (∀ v, ValidateHandshake (ConnectRequest.mk 1 "connect" "x") 1 = some v →
      handleConnectionHandshake (some (ConnectRequest.mk 1 "connect" "x")) ["x"] none
        = HandshakeReply.errorEnvelope "protocol_error" v) ∧
    (ValidateHandshake (ConnectRequest.mk 1 "connect" "x") 1 = none →
      (ConnectRequest.mk 1 "connect" "x").server ∉ ["x"] →
      handleConnectionHandshake (some (ConnectRequest.mk 1 "connect" "x")) ["x"] none
        = HandshakeReply.errorEnvelope "unknown_server" "server not found in config") ∧
    (∀ e, ValidateHandshake (ConnectRequest.mk 1 "connect" "x") 1 = none →
      (ConnectRequest.mk 1 "connect" "x").server ∈ ["x"] →
      (none : Option String) = some e →
      handleConnectionHandshake (some (ConnectRequest.mk 1 "connect" "x")) ["x"] none
        = HandshakeReply.errorEnvelope "start_failed" e) ∧
    (ValidateHandshake (ConnectRequest.mk 1 "connect" "x") 1 = none →
      (ConnectRequest.mk 1 "connect" "x").server ∈ ["x"] →
      (none : Option String) = none →
      handleConnectionHandshake (some (ConnectRequest.mk 1 "connect" "x")) ["x"] none
        = HandshakeReply.connected "ready")) :=
  c8_handshake_codes (ConnectRequest.mk 1 "connect" "x") ["x"] none

/-- Claim C9: every stdin write sends the message bytes followed by exactly
one newline; in the deadline model (the latest server.go revision is absent
from src, so the 10 s discipline is modelled from the spec) a write that
completes within the deadline leaves the pipe open and returns the bytes
written, and a write that exceeds it closes the stdin pipe and returns an
error to the caller. -/
theorem c9_stdin_write (p : StdinPipe) (data : List Nat) (w : Bool)
    (hp : p.available = true) :
    WriteToStdin true data = Except.ok (data ++ [10]) ∧
    (w = true → WriteToStdinDeadline p data w = (p, Except.ok (data ++ [10]))) ∧
    (w = false → (WriteToStdinDeadline p data w).1.available = false ∧
      (WriteToStdinDeadline p data w).2
        = Except.error "stdin write deadline exceeded") := by
  refine ⟨rfl, ?_, ?_⟩ <;> intro hw <;> subst hw <;>
    simp [WriteToStdinDeadline, hp]

/-- Witness for C9 at concrete bytes. -/
theorem c9_stdin_write_witness :
    ((StdinPipe.mk true).available = true) ∧
    (WriteToStdin true [104, 105] = Except.ok ([104, 105] ++ [10]) ∧
      (false = true → WriteToStdinDeadline (StdinPipe.mk true) [104, 105] false
        = (StdinPipe.mk true, Except.ok ([104, 105] ++ [10]))) ∧
      (false = false →
        (WriteToStdinDeadline (StdinPipe.mk true) [104, 105] false).1.available
          = false ∧
        (WriteToStdinDeadline (StdinPipe.mk true) [104, 105] false).2
          = Except.error "stdin write deadline exceeded")) :=
  ⟨rfl, c9_stdin_write (StdinPipe.mk true) [104, 105] false rfl⟩

/-- Filtering twice with the same predicate is the same as filtering once. -/
theorem filter_idem {α : Type} (p : α → Bool) (l : List α) :
    (l.filter p).filter p = l.filter p := by
  induction l with
  | nil => rfl
  | cons a rest ih =>
    by_cases h : p a = true
    · simp [List.filter_cons, h, ih]
    · simp [List.filter_cons, h, ih]

theorem mem_insertSid (l : List String) (s : String) : s ∈ insertSid l s := by
  unfold insertSid
  split_ifs with h
  · exact h
  · exact List.mem_cons_self _ _

theorem insertSid_of_mem (l : List String) (s : String) (h : s ∈ l) :
    insertSid l s = l := by
  unfold insertSid
  simp [h]

theorem strLookup_store (t : SubscriptionTracker) (uri : String)
    (l : List String) :
    strLookup (t.store uri l).subscriptions uri = some l := by
  simp [SubscriptionTracker.store, strLookup]

/-- Claim C10: `Subscribe` is idempotent — repeating `Subscribe(u, s)` leaves
the tracker unchanged and returns the same count — and a sole subscriber that
re-subscribes gets count 1 back, so the sessionLoop forwards the duplicate
subscribe to the server instead of answering locally. -/
theorem c10_subscribe_idempotent (t : SubscriptionTracker) (uri sid : String) :
    ((t.Subscribe uri sid).2.Subscribe uri sid).1 = (t.Subscribe uri sid).1 ∧
    ((t.Subscribe uri sid).2.Subscribe uri sid).2 = (t.Subscribe uri sid).2 ∧
    (t.Subscribers uri = [sid] →
      (t.Subscribe uri sid).1 = 1 ∧
      (subStep t (SubEvent.subscribe sid uri)).2 = [SubOut.fwdSubscribe uri]) := by
  have hins : insertSid (insertSid ((strLookup t.subscriptions uri).getD []) sid) sid
      = insertSid ((strLookup t.subscriptions uri).getD []) sid :=
    insertSid_of_mem _ _ (mem_insertSid _ _)
  have hsecond :
      (t.Subscribe uri sid).2.Subscribe uri sid
        = ((t.Subscribe uri sid).1, (t.Subscribe uri sid).2) := by
    unfold SubscriptionTracker.Subscribe
    rw [strLookup_store]
    simp only [Option.getD_some, hins]
    refine congrArg _ ?_
    unfold SubscriptionTracker.store
    simp only [SubscriptionTracker.mk.injEq, List.filter_cons]
    have : (decide (uri ≠ uri)) = false := by simp
    rw [this]
    simp [filter_idem]
  refine ⟨by rw [hsecond], by rw [hsecond], ?_⟩
  intro hsole
  have hl : strLookup t.subscriptions uri = some [sid] := by
    unfold SubscriptionTracker.Subscribers at hsole
    cases h : strLookup t.subscriptions uri with
    | none => rw [h] at hsole; simp at hsole
    | some l => rw [h] at hsole; simp at hsole; rw [hsole]
  have hcount : (t.Subscribe uri sid).1 = 1 := by
    unfold SubscriptionTracker.Subscribe
    rw [hl]
    simp [insertSid]
  refine ⟨hcount, ?_⟩
  unfold subStep
  simp only [hcount]
  norm_num

/-- Witness for C10: sole subscriber `"A"` of `file:///x` re-subscribes. -/
theorem c10_subscribe_idempotent_witness :
    ((SubscriptionTracker.mk [("file:///x", ["A"])]).Subscribers "file:///x"
        = ["A"] → True) ∧
    ((((SubscriptionTracker.mk [("file:///x", ["A"])]).Subscribe "file:///x" "A").2.Subscribe
          "file:///x" "A").1
        = ((SubscriptionTracker.mk [("file:///x", ["A"])]).Subscribe "file:///x" "A").1 ∧
      (((SubscriptionTracker.mk [("file:///x", ["A"])]).Subscribe "file:///x" "A").2.Subscribe
          "file:///x" "A").2
        = ((SubscriptionTracker.mk [("file:///x", ["A"])]).Subscribe "file:///x" "A").2 ∧
      ((SubscriptionTracker.mk [("file:///x", ["A"])]).Subscribers "file:///x" = ["A"] →
        (((SubscriptionTracker.mk [("file:///x", ["A"])]).Subscribe "file:///x" "A").1 = 1 ∧
        (subStep (SubscriptionTracker.mk [("file:///x", ["A"])])
            (SubEvent.subscribe "A" "file:///x")).2
          = [SubOut.fwdSubscribe "file:///x"]))) :=
  ⟨fun _ => trivial,
   c10_subscribe_idempotent (SubscriptionTracker.mk [("file:///x", ["A"])])
     "file:///x" "A"⟩

/-- Claim C2, counterexample: two sessions that send `initialize` before the
server's first response arrives (the cache is still empty for both) each get
their request forwarded — two `initialize` messages reach the server between
daemon restarts, refuting "at most one initialize is ever forwarded". -/
theorem c2_counterexample :
    ((initRun ⟨IDMapper.new, none, []⟩
        [InitEvent.sessInit "A" (Json.num 1),
         InitEvent.sessInit "B" (Json.num 42)]).2.countP InitOut.isForward) = 2 := by
  rfl

theorem initRun_no_forward (evs : List InitEvent) :
    ∀ st : InitState, st.initCache.isSome →
      (initRun st evs).2.countP InitOut.isForward = 0 := by
  induction evs with
  | nil => intro st _; rfl
  | cons e rest ih =>
    intro st hsome
    have hrun : initRun st (e :: rest)
        = ((initRun (initStep st e).1 rest).1,
           (initStep st e).2 ++ (initRun (initStep st e).1 rest).2) := rfl
    rw [hrun, List.countP_append]
    obtain ⟨r, hr⟩ := Option.isSome_iff_exists.mp hsome
    have hstep : (initStep st e).2.countP InitOut.isForward = 0 ∧
        (initStep st e).1.initCache.isSome := by
      cases e with
      | sessInit sid origID =>
        simp [initStep, initSessStep, hr, InitOut.isForward, Option.isSome]
      | serverResp gid result =>
        constructor
        · show ((match (st.idMapper.Unmap gid).1 with
            | some mapping =>
              [InitOut.replyMapped mapping.sessionID mapping.originalID result]
            | none => []).countP InitOut.isForward) = 0
          cases (st.idMapper.Unmap gid).1 <;>
            simp [InitOut.isForward]
        · show (if gid ∈ st.pendingInit then some result
              else st.initCache).isSome = true
          split
          · rfl
          · rw [hr]; rfl
    rw [hstep.1, ih _ hstep.2]

/-- Claim C2, amended: an `initialize` is forwarded to the server only while
the server's cache entry is still empty; once the initialize result has been
cached, no event — in particular no further session `initialize` — ever
forwards an `initialize` again, and a session that sends `initialize` then
receives a reply carrying the cached result body under its own original id,
with nothing forwarded to the server for it and the state unchanged. -/
theorem c2_init_cache_singularity (st : InitState) (r : Json)
    (hcached : st.initCache = some r) (sid : String) (origID : Json)
    (evs : List InitEvent) :
    initSessStep st sid origID = (st, [InitOut.replyCached sid origID r]) ∧
    (initRun st evs).2.countP InitOut.isForward = 0 := by
  constructor
  · unfold initSessStep
    rw [hcached]
  · exact initRun_no_forward evs st (by rw [hcached]; rfl)

/-- Witness for C2 at a concrete cached state. -/
theorem c2_init_cache_singularity_witness :
    ((InitState.mk IDMapper.new (some (Json.str "cached")) []).initCache
      = some (Json.str "cached")) ∧
    (initSessStep (InitState.mk IDMapper.new (some (Json.str "cached")) [])
        "B" (Json.num 42)
      = (InitState.mk IDMapper.new (some (Json.str "cached")) [],
         [InitOut.replyCached "B" (Json.num 42) (Json.str "cached")]) ∧
     (initRun (InitState.mk IDMapper.new (some (Json.str "cached")) [])
        [InitEvent.sessInit "B" (Json.num 42),
         InitEvent.serverResp 7 (Json.str "late")]).2.countP InitOut.isForward
       = 0) :=
  ⟨rfl,
   c2_init_cache_singularity
     (InitState.mk IDMapper.new (some (Json.str "cached")) [])
     (Json.str "cached") rfl "B" (Json.num 42)
     [InitEvent.sessInit "B" (Json.num 42),
      InitEvent.serverResp 7 (Json.str "late")]⟩

/-! ### Serialization ordering (C5) -/

theorem SerAuto.append {p : Option Nat} {pre : List Nat} {t1 : List SerItem}
    {p1 : Option Nat} {pre1 : List Nat} {t2 : List SerItem} {p2 : Option Nat}
    {pre2 : List Nat}
    (h1 : SerAuto p pre t1 p1 pre1) (h2 : SerAuto p1 pre1 t2 p2 pre2) :
    SerAuto p pre (t1 ++ t2) p2 pre2 := by
  induction h1 with
  | nil _ _ => exact h2
  | wOpen g _ ih => exact SerAuto.wOpen g (ih h2)
  | wPre g hg _ ih => exact SerAuto.wPre g hg (ih h2)
  | rel g _ ih => exact SerAuto.rel g (ih h2)
  | relPre g _ ih => exact SerAuto.relPre g (ih h2)

theorem serRunQueue_cons (released : List Nat) (g : Nat) (rest : List Nat) :
    serRunQueue released (g :: rest)
      = if g ∈ released then
          ((serRunQueue (released.erase g) rest).1,
           (serRunQueue (released.erase g) rest).2.1,
           (serRunQueue (released.erase g) rest).2.2.1,
           SerItem.write g :: (serRunQueue (released.erase g) rest).2.2.2)
        else (some g, rest, released, [SerItem.write g]) := rfl

theorem drainQueued_cons (released : List Nat) (g : Nat) (rest : List Nat) :
    drainQueued released (g :: rest)
      = if g ∈ released then drainQueued released rest
        else ((drainQueued (g :: released) rest).1,
              SerItem.release g :: (drainQueued (g :: released) rest).2) := rfl

theorem serRunQueue_auto (l : List Nat) :
    ∀ released : List Nat,
      SerAuto none released (serRunQueue released l).2.2.2
        (serRunQueue released l).1 (serRunQueue released l).2.2.1 := by
  induction l with
  | nil => intro rel; exact SerAuto.nil _ _
  | cons g rest ih =>
    intro rel
    by_cases hg : g ∈ rel
    · have he : serRunQueue rel (g :: rest)
          = ((serRunQueue (rel.erase g) rest).1,
             (serRunQueue (rel.erase g) rest).2.1,
             (serRunQueue (rel.erase g) rest).2.2.1,
             SerItem.write g :: (serRunQueue (rel.erase g) rest).2.2.2) := by
        rw [serRunQueue_cons, if_pos hg]
      rw [he]
      exact SerAuto.wPre g hg (ih (rel.erase g))
    · have he : serRunQueue rel (g :: rest)
          = (some g, rest, rel, [SerItem.write g]) := by
        rw [serRunQueue_cons, if_neg hg]
      rw [he]
      exact SerAuto.wOpen g (SerAuto.nil _ _)

theorem drainQueued_auto (l : List Nat) :
    ∀ (released : List Nat) (p : Option Nat),
      SerAuto p released (drainQueued released l).2
        p (drainQueued released l).1 := by
  induction l with
  | nil => intro rel p; exact SerAuto.nil _ _
  | cons g rest ih =>
    intro rel p
    by_cases hg : g ∈ rel
    · have he : drainQueued rel (g :: rest) = drainQueued rel rest := by
        rw [drainQueued_cons, if_pos hg]
      rw [he]
      exact ih rel p
    · have he : drainQueued rel (g :: rest)
          = ((drainQueued (g :: rel) rest).1,
             SerItem.release g :: (drainQueued (g :: rel) rest).2) := by
        rw [drainQueued_cons, if_neg hg]
      rw [he]
      exact SerAuto.relPre g (ih (g :: rel) p)

theorem serStep_auto (s : SerializeState) (e : SerEvent) :
    SerAuto s.inflight s.released (serStep s e).2
      (serStep s e).1.inflight (serStep s e).1.released := by
  obtain ⟨q, inf, rel⟩ := s
  cases e with
  | enqueue g =>
    cases inf with
    | some cur => exact SerAuto.nil _ _
    | none => exact serRunQueue_auto (q ++ [g]) rel
  | respond g =>
    cases inf with
    | some cur =>
      by_cases hc : cur = g
      · subst hc
        have he : serStep ⟨q, some cur, rel⟩ (SerEvent.respond cur)
            = (⟨(serRunQueue rel q).2.1, (serRunQueue rel q).1,
                (serRunQueue rel q).2.2.1⟩,
               SerItem.release cur :: (serRunQueue rel q).2.2.2) := by
          show (if cur = cur then _ else _) = _
          rw [if_pos rfl]
        rw [he]
        exact SerAuto.rel cur (serRunQueue_auto q rel)
      · have he : serStep ⟨q, some cur, rel⟩ (SerEvent.respond g)
            = if g ∈ q ∧ g ∉ rel
              then (⟨q, some cur, g :: rel⟩, [SerItem.release g])
              else (⟨q, some cur, rel⟩, []) := by
          show (if cur = g then _ else _) = _
          rw [if_neg hc]
        rw [he]
        by_cases hq : g ∈ q ∧ g ∉ rel
        · rw [if_pos hq]
          exact SerAuto.relPre g (SerAuto.nil _ _)
        · rw [if_neg hq]
          exact SerAuto.nil _ _
    | none =>
      by_cases hq : g ∈ q ∧ g ∉ rel
      · have he : serStep ⟨q, none, rel⟩ (SerEvent.respond g)
            = (⟨q, none, g :: rel⟩, [SerItem.release g]) := by
          show (if g ∈ q ∧ g ∉ rel then _ else _) = _
          rw [if_pos hq]
        rw [he]
        exact SerAuto.relPre g (SerAuto.nil _ _)
      · have he : serStep ⟨q, none, rel⟩ (SerEvent.respond g)
            = (⟨q, none, rel⟩, []) := by
          show (if g ∈ q ∧ g ∉ rel then _ else _) = _
          rw [if_neg hq]
        rw [he]
        exact SerAuto.nil _ _
  | crash =>
    cases inf with
    | some cur =>
      have he : serStep ⟨q, some cur, rel⟩ SerEvent.crash
          = (⟨(serRunQueue (drainQueued rel q).1 q).2.1,
              (serRunQueue (drainQueued rel q).1 q).1,
              (serRunQueue (drainQueued rel q).1 q).2.2.1⟩,
             SerItem.release cur
               :: ((drainQueued rel q).2
                     ++ (serRunQueue (drainQueued rel q).1 q).2.2.2)) := rfl
      rw [he]
      exact SerAuto.rel cur
        (SerAuto.append (drainQueued_auto q rel none)
          (serRunQueue_auto q (drainQueued rel q).1))
    | none =>
      have he : serStep ⟨q, none, rel⟩ SerEvent.crash
          = (⟨(serRunQueue (drainQueued rel q).1 q).2.1,
              (serRunQueue (drainQueued rel q).1 q).1,
              (serRunQueue (drainQueued rel q).1 q).2.2.1⟩,
             (drainQueued rel q).2
               ++ (serRunQueue (drainQueued rel q).1 q).2.2.2) := rfl
      rw [he]
      exact SerAuto.append (drainQueued_auto q rel none)
        (serRunQueue_auto q (drainQueued rel q).1)

theorem serRun_auto (evs : List SerEvent) :
    ∀ s : SerializeState,
      SerAuto s.inflight s.released (serRun s evs).2
        (serRun s evs).1.inflight (serRun s evs).1.released := by
  induction evs with
  | nil => intro s; exact SerAuto.nil _ _
  | cons e rest ih =>
    intro s
    have hrun : serRun s (e :: rest)
        = ((serRun (serStep s e).1 rest).1,
           (serStep s e).2 ++ (serRun (serStep s e).1 rest).2) := rfl
    rw [hrun]
    exact SerAuto.append (serStep_auto s e) (ih (serStep s e).1)

theorem serAuto_pending_blocks {p : Option Nat} {pre : List Nat}
    {u : List SerItem} {p' : Option Nat} {pre' : List Nat}
    (h : SerAuto p pre u p' pre') :
    ∀ g : Nat, p = some g →
      ∀ (t2 t3 : List SerItem) (g2 : Nat),
        u = t2 ++ SerItem.write g2 :: t3 → SerItem.release g ∈ t2 := by
  induction h with
  | nil _ _ =>
    intro g _ t2 t3 g2 heq
    exact absurd heq.symm (by simp)
  | wOpen g0 _ _ =>
    intro g hp
    exact Option.noConfusion hp
  | wPre g0 hg0 _ _ =>
    intro g hp
    exact Option.noConfusion hp
  | rel g0 _ _ =>
    intro g hp t2 t3 g2 heq
    injection hp with hp0
    cases t2 with
    | nil =>
      rw [List.nil_append] at heq
      simp at heq
    | cons y t2m =>
      injection heq with h1 _
      rw [← h1, hp0]
      exact List.mem_cons_self _ _
  | relPre g0 _ ih =>
    intro g hp t2 t3 g2 heq
    cases t2 with
    | nil =>
      rw [List.nil_append] at heq
      simp at heq
    | cons y t2m =>
      injection heq with h1 h2
      exact List.mem_cons_of_mem _ (ih g hp t2m t3 g2 h2)

theorem serAuto_write_sep {p : Option Nat} {pre : List Nat}
    {t : List SerItem} {p' : Option Nat} {pre' : List Nat}
    (h : SerAuto p pre t p' pre') :
    ∀ (t1 t2 t3 : List SerItem) (g1 g2 : Nat),
      t = t1 ++ SerItem.write g1 :: t2 ++ SerItem.write g2 :: t3 →
      SerItem.release g1 ∈ t1 ++ t2 ∨ g1 ∈ pre := by
  induction h with
  | nil _ _ =>
    intro t1 t2 t3 g1 g2 heq
    exact absurd heq.symm (by simp)
  | wOpen g hc ih =>
    intro t1 t2 t3 g1 g2 heq
    cases t1 with
    | nil =>
      rw [List.nil_append] at heq
      injection heq with h1 h2
      injection h1 with hg1
      subst hg1
      left
      rw [List.nil_append]
      exact serAuto_pending_blocks hc g rfl t2 t3 g2 h2
    | cons x t1m =>
      injection heq with _ h2
      cases ih t1m t2 t3 g1 g2 h2 with
      | inl hmem => exact Or.inl (List.mem_cons_of_mem _ hmem)
      | inr hpre => exact Or.inr hpre
  | wPre g hg hc ih =>
    intro t1 t2 t3 g1 g2 heq
    cases t1 with
    | nil =>
      rw [List.nil_append] at heq
      injection heq with h1 _
      injection h1 with hg1
      subst hg1
      exact Or.inr hg
    | cons x t1m =>
      injection heq with _ h2
      cases ih t1m t2 t3 g1 g2 h2 with
      | inl hmem => exact Or.inl (List.mem_cons_of_mem _ hmem)
      | inr hpre => exact Or.inr (List.mem_of_mem_erase hpre)
  | rel g hc ih =>
    intro t1 t2 t3 g1 g2 heq
    cases t1 with
    | nil =>
      rw [List.nil_append] at heq
      simp at heq
    | cons x t1m =>
      injection heq with _ h2
      cases ih t1m t2 t3 g1 g2 h2 with
      | inl hmem => exact Or.inl (List.mem_cons_of_mem _ hmem)
      | inr hpre => exact Or.inr hpre
  | relPre g hc ih =>
    intro t1 t2 t3 g1 g2 heq
    cases t1 with
    | nil =>
      rw [List.nil_append] at heq
      simp at heq
    | cons x t1m =>
      injection heq with h1 h2
      cases ih t1m t2 t3 g1 g2 h2 with
      | inl hmem => exact Or.inl (List.mem_cons_of_mem _ hmem)
      | inr hpre =>
        cases List.mem_cons.mp hpre with
        | inl hgg =>
          left
          rw [← h1, hgg]
          exact List.mem_cons_self _ _
        | inr hpre2 => exact Or.inr hpre2

/-- Claim C5: for each ready server with serialize=true, session-originated
requests are written to stdin one at a time: in every run of the
serialization machinery from the empty state, whenever request R2's bytes
are written after request R1's, R1's waiter has already been released by
then — by its response being signalled back, or by the crash/shutdown drain
closing the waiter (possibly before R1's own write, for a queued entry
drained by a crash) — and notifications bypass the queue, going directly to
stdin without enqueueing. -/
theorem c5_serialize_order (evs : List SerEvent)
    (t1 t2 t3 : List SerItem) (g1 g2 : Nat)
    (h : (serRun ⟨[], none, []⟩ evs).2
        = t1 ++ SerItem.write g1 :: t2 ++ SerItem.write g2 :: t3) :
    SerItem.release g1 ∈ t1 ++ t2 ∧
    (∀ hasQ : Bool, submitToServer hasQ false = SubmitPath.direct) := by
  constructor
  · cases serAuto_write_sep (serRun_auto evs ⟨[], none, []⟩) t1 t2 t3 g1 g2 h
      with
    | inl hmem => exact hmem
    | inr hpre => exact absurd hpre (by simp)
  · intro hasQ
    cases hasQ <;> rfl

theorem c5_serialize_order_witness :
    ((serRun ⟨[], none, []⟩
        [SerEvent.enqueue 1, SerEvent.enqueue 2, SerEvent.enqueue 3,
         SerEvent.crash]).2
      = [SerItem.write 1, SerItem.release 1, SerItem.release 2,
          SerItem.release 3]
          ++ SerItem.write 2 :: [] ++ SerItem.write 3 :: []) ∧
    (SerItem.release 2
        ∈ [SerItem.write 1, SerItem.release 1, SerItem.release 2,
            SerItem.release 3] ++ [] ∧
      ∀ hasQ : Bool, submitToServer hasQ false = SubmitPath.direct) :=
  ⟨by decide,
   c5_serialize_order
     [SerEvent.enqueue 1, SerEvent.enqueue 2, SerEvent.enqueue 3,
      SerEvent.crash]
     [SerItem.write 1, SerItem.release 1, SerItem.release 2,
      SerItem.release 3]
     [] [] 2 3 (by decide)⟩

/-! ### Subscription refcount discipline (C4) -/

theorem strLookup_mem {α : Type} {l : List (String × α)} {k : String} {v : α}
    (h : strLookup l k = some v) : (k, v) ∈ l := by
  induction l with
  | nil => simp [strLookup] at h
  | cons p rest ih =>
    unfold strLookup at h
    split_ifs at h with hk
    · obtain ⟨k', v'⟩ := p
      simp at hk
      injection h with hv
      subst hk; subst hv
      exact List.mem_cons_self _ _
    · exact List.mem_cons_of_mem _ (ih h)

theorem strLookup_filter_ne {α : Type} (l : List (String × α)) (k : String) :
    strLookup (l.filter (fun p => p.1 ≠ k)) k = none := by
  induction l with
  | nil => rfl
  | cons p rest ih =>
    rw [List.filter_cons]
    by_cases hk : p.1 = k
    · rw [if_neg (by simp [hk])]
      exact ih
    · rw [if_pos (by simp [hk])]
      unfold strLookup
      rw [if_neg hk]
      exact ih

theorem filter_ne_length {l : List String} {a : String}
    (hn : l.Nodup) (ha : a ∈ l) :
    (l.filter (fun s => s ≠ a)).length = l.length - 1 := by
  induction l with
  | nil => simp at ha
  | cons b rest ih =>
    rw [List.nodup_cons] at hn
    by_cases hb : b = a
    · subst hb
      have hrest : rest.filter (fun s => s ≠ b) = rest := by
        apply List.filter_eq_self.mpr
        intro x hx
        have hxb : x ≠ b := fun h => hn.1 (h ▸ hx)
        simpa using hxb
      rw [List.filter_cons, if_neg (by simp), hrest, List.length_cons]
      omega
    · have ha' : a ∈ rest := by
        cases List.mem_cons.mp ha with
        | inl h => exact absurd h.symm hb
        | inr h => exact h
      have hpos : 1 ≤ rest.length := List.length_pos.mpr (by
        intro hnil; rw [hnil] at ha'; simp at ha')
      rw [List.filter_cons, if_pos (by simpa using hb)]
      simp only [List.length_cons, ih hn.2 ha']
      omega

theorem nodup_mem_filter_nil {l : List String} {a : String}
    (hn : l.Nodup) (ha : a ∈ l) :
    (l.filter (fun s => s ≠ a) = []) ↔ l = [a] := by
  constructor
  · intro hf
    have hall : ∀ x ∈ l, x = a := by
      intro x hx
      have := List.filter_eq_nil_iff.mp hf x hx
      simpa using this
    cases l with
    | nil => simp at ha
    | cons b rest =>
      have hb : b = a := hall b (List.mem_cons_self _ _)
      subst hb
      rw [List.nodup_cons] at hn
      cases rest with
      | nil => rfl
      | cons c rest' =>
        have hc : c = b := hall c (by simp)
        exact absurd (hc ▸ List.mem_cons_self c rest') hn.1
  · intro hl
    subst hl
    simp

theorem subStep_subscribe (t : SubscriptionTracker) (sid uri : String) :
    subStep t (SubEvent.subscribe sid uri)
      = if (t.Subscribe uri sid).1 > 1
        then ((t.Subscribe uri sid).2, [SubOut.localReply sid])
        else ((t.Subscribe uri sid).2, [SubOut.fwdSubscribe uri]) := rfl

theorem subStep_unsubscribe (t : SubscriptionTracker) (sid uri : String) :
    subStep t (SubEvent.unsubscribe sid uri)
      = if (t.Unsubscribe uri sid).1 > 0
        then ((t.Unsubscribe uri sid).2, [SubOut.localReply sid])
        else ((t.Unsubscribe uri sid).2, [SubOut.fwdUnsubscribe uri]) := rfl

theorem subStep_disconnect (t : SubscriptionTracker) (sid : String) :
    subStep t (SubEvent.disconnect sid)
      = ((t.RemoveSession sid).2,
         (t.RemoveSession sid).1.map SubOut.fwdUnsubscribe) := rfl

theorem removeSessionList_cons (sid uri : String) (sessions : List String)
    (rest : List (String × List String)) :
    SubscriptionTracker.removeSessionList sid ((uri, sessions) :: rest)
      = if sid ∈ sessions then
          (if (sessions.filter (fun s => s ≠ sid)).isEmpty
           then (uri :: (SubscriptionTracker.removeSessionList sid rest).1,
                 (SubscriptionTracker.removeSessionList sid rest).2)
           else ((SubscriptionTracker.removeSessionList sid rest).1,
                 (uri, sessions.filter (fun s => s ≠ sid)) ::
                   (SubscriptionTracker.removeSessionList sid rest).2))
        else ((SubscriptionTracker.removeSessionList sid rest).1,
              (uri, sessions) ::
                (SubscriptionTracker.removeSessionList sid rest).2) := rfl

theorem removeSessionList_orphans_subset (sid : String)
    (l : List (String × List String)) :
    ∀ u ∈ (SubscriptionTracker.removeSessionList sid l).1, u ∈ l.map Prod.fst := by
  induction l with
  | nil => intro u hu; simp [SubscriptionTracker.removeSessionList] at hu
  | cons p rest ih =>
    intro u hu
    obtain ⟨uri, sessions⟩ := p
    rw [removeSessionList_cons] at hu
    split_ifs at hu with h1 h2
    · cases List.mem_cons.mp hu with
      | inl h => simp [h]
      | inr h => exact List.mem_cons_of_mem _ (ih u h)
    · exact List.mem_cons_of_mem _ (ih u hu)
    · exact List.mem_cons_of_mem _ (ih u hu)

theorem removeSessionList_orphans_iff (sid : String)
    (l : List (String × List String)) (hkeys : (l.map Prod.fst).Nodup)
    (u : String) :
    u ∈ (SubscriptionTracker.removeSessionList sid l).1 ↔
      ∃ ss, strLookup l u = some ss ∧ sid ∈ ss ∧
        ss.filter (fun s => s ≠ sid) = [] := by
  induction l with
  | nil => simp [SubscriptionTracker.removeSessionList, strLookup]
  | cons p rest ih =>
    obtain ⟨uri, sessions⟩ := p
    rw [List.map_cons, List.nodup_cons] at hkeys
    rw [removeSessionList_cons]
    by_cases hu : uri = u
    · subst hu
      have hnotrest : uri ∈ (SubscriptionTracker.removeSessionList sid rest).1 → False := by
        intro hmem
        exact hkeys.1 (removeSessionList_orphans_subset sid rest uri hmem)
      have hlook : strLookup ((uri, sessions) :: rest) uri = some sessions := by
        show (if uri = uri then some sessions else strLookup rest uri)
          = some sessions
        rw [if_pos rfl]
      constructor
      · intro hmem
        split_ifs at hmem with h1 h2
        · cases List.mem_cons.mp hmem with
          | inl _ =>
            exact ⟨sessions, hlook, h1, List.isEmpty_iff.mp h2⟩
          | inr h => exact absurd h hnotrest
        · exact absurd hmem hnotrest
        · exact absurd hmem hnotrest
      · rintro ⟨ss, hss, hmem, hfil⟩
        rw [hlook] at hss
        injection hss with hss
        subst hss
        rw [if_pos hmem, if_pos (by rw [hfil]; rfl)]
        exact List.mem_cons_self _ _
    · have hlook : strLookup ((uri, sessions) :: rest) u = strLookup rest u := by
        show (if uri = u then some sessions else strLookup rest u)
          = strLookup rest u
        rw [if_neg hu]
      rw [hlook, ← ih hkeys.2]
      split_ifs with h1 h2
      · constructor
        · intro hmem
          cases List.mem_cons.mp hmem with
          | inl h => exact absurd h.symm hu
          | inr h => exact h
        · exact List.mem_cons_of_mem _
      · exact Iff.rfl
      · exact Iff.rfl

/-- Claim C4, counterexample: the sole subscriber of `file:///x` re-sends
`resources/subscribe`; `Subscribe` has set semantics so the count stays 1,
the intercept forwards again, and the server receives two subscribes while
refcount stayed above zero. -/
theorem c4_counterexample :
    (subRun (SubscriptionTracker.mk [])
        [SubEvent.subscribe "A" "file:///x",
         SubEvent.subscribe "A" "file:///x"]).2
      = [SubOut.fwdSubscribe "file:///x", SubOut.fwdSubscribe "file:///x"] ∧
    ((subStep (SubscriptionTracker.mk [])
        (SubEvent.subscribe "A" "file:///x")).1.refcount "file:///x") = 1 := by
  constructor
  · rfl
  · rfl

/-- Claim C4, amended: provided a session subscribes only to uris it is not
currently subscribed to and unsubscribes only from uris it is subscribed to,
the server receives `resources/subscribe` exactly when refcount(U) rises from
0 (first subscriber) and `resources/unsubscribe` exactly when refcount(U)
falls back to 0 — including when the last subscriber disconnects, which sends
the synthetic unsubscribe for precisely the orphaned uris; a subscribe whose
new count is > 1 and an unsubscribe with remaining count > 0 are answered
locally with an empty result and nothing is forwarded.  (Without the proviso
a duplicate subscribe by the sole subscriber is forwarded again — see the
counterexample.) -/
theorem c4_refcount_discipline (t : SubscriptionTracker) (hwf : t.WF)
    (sid uri : String) :
    (sid ∉ t.Subscribers uri →
      ((subStep t (SubEvent.subscribe sid uri)).2
        = if t.refcount uri = 0 then [SubOut.fwdSubscribe uri]
          else [SubOut.localReply sid]) ∧
      (subStep t (SubEvent.subscribe sid uri)).1.refcount uri
        = t.refcount uri + 1) ∧
    (sid ∈ t.Subscribers uri →
      ((subStep t (SubEvent.unsubscribe sid uri)).2
        = if t.refcount uri = 1 then [SubOut.fwdUnsubscribe uri]
          else [SubOut.localReply sid]) ∧
      (subStep t (SubEvent.unsubscribe sid uri)).1.refcount uri
        = t.refcount uri - 1) ∧
    ((SubOut.fwdUnsubscribe uri ∈ (subStep t (SubEvent.disconnect sid)).2 ↔
        (sid ∈ t.Subscribers uri ∧ t.refcount uri = 1)) ∧
      ∀ s, SubOut.localReply s ∉ (subStep t (SubEvent.disconnect sid)).2) := by
  refine ⟨?_, ?_, ?_, ?_⟩
  · -- subscribe
    intro hnot
    have hnot' : sid ∉ (strLookup t.subscriptions uri).getD [] := hnot
    have hins : insertSid ((strLookup t.subscriptions uri).getD []) sid
        = sid :: (strLookup t.subscriptions uri).getD [] := by
      unfold insertSid
      rw [if_neg hnot']
    have hsub : t.Subscribe uri sid
        = ((t.Subscribers uri).length + 1,
           t.store uri (sid :: t.Subscribers uri)) := by
      show ((insertSid ((strLookup t.subscriptions uri).getD []) sid).length,
            t.store uri (insertSid ((strLookup t.subscriptions uri).getD []) sid))
          = ((t.Subscribers uri).length + 1,
             t.store uri (sid :: t.Subscribers uri))
      rw [hins]
      rfl
    have hrc : (t.store uri (sid :: t.Subscribers uri)).refcount uri
        = (t.Subscribers uri).length + 1 := by
      unfold SubscriptionTracker.refcount SubscriptionTracker.Subscribers
      rw [strLookup_store]
      rfl
    rw [subStep_subscribe, hsub]
    constructor
    · by_cases hz : t.refcount uri = 0
      · have hz' : (t.Subscribers uri).length = 0 := hz
        rw [if_neg (by omega), if_pos hz]
      · have hz' : (t.Subscribers uri).length ≠ 0 := hz
        rw [if_pos (by omega), if_neg hz]
    · split_ifs <;> exact hrc
  · -- unsubscribe
    intro hmem
    obtain ⟨sessions, hl⟩ : ∃ ss, strLookup t.subscriptions uri = some ss := by
      unfold SubscriptionTracker.Subscribers at hmem
      cases h : strLookup t.subscriptions uri with
      | none => rw [h] at hmem; simp at hmem
      | some ss => exact ⟨ss, rfl⟩
    have hmem' : sid ∈ sessions := by
      unfold SubscriptionTracker.Subscribers at hmem
      rw [hl] at hmem
      exact hmem
    have hrc : t.refcount uri = sessions.length := by
      unfold SubscriptionTracker.refcount SubscriptionTracker.Subscribers
      rw [hl]
      rfl
    have hnodup : sessions.Nodup := (hwf.2 _ (strLookup_mem hl)).1
    have hflen : (sessions.filter (fun s => s ≠ sid)).length
        = sessions.length - 1 := filter_ne_length hnodup hmem'
    have hpos : 1 ≤ sessions.length := List.length_pos.mpr (by
      intro hnil; rw [hnil] at hmem'; simp at hmem')
    have huns : t.Unsubscribe uri sid
        = (if (sessions.filter (fun s => s ≠ sid)).isEmpty
            then (0, SubscriptionTracker.mk
                (t.subscriptions.filter (fun p => p.1 ≠ uri)))
            else ((sessions.filter (fun s => s ≠ sid)).length,
                  t.store uri (sessions.filter (fun s => s ≠ sid)))) := by
      unfold SubscriptionTracker.Unsubscribe
      rw [hl]
    by_cases hone : sessions.length = 1
    · have hss1 : sessions = [sid] := by
        cases sessions with
        | nil => simp at hmem'
        | cons a rest =>
          simp only [List.length_cons] at hone
          have : rest = [] := List.length_eq_zero.mp (by omega)
          subst this
          simp at hmem'
          rw [hmem']
      have hfe : (sessions.filter (fun s => s ≠ sid)).isEmpty = true := by
        rw [hss1]
        simp
      have huns' : t.Unsubscribe uri sid
          = (0, SubscriptionTracker.mk
              (t.subscriptions.filter (fun p => p.1 ≠ uri))) := by
        rw [huns, if_pos hfe]
      have hstep : subStep t (SubEvent.unsubscribe sid uri)
          = (SubscriptionTracker.mk
              (t.subscriptions.filter (fun p => p.1 ≠ uri)),
             [SubOut.fwdUnsubscribe uri]) := by
        rw [subStep_unsubscribe, huns']
        rfl
      have hrc1 : t.refcount uri = 1 := by rw [hrc, hone]
      constructor
      · rw [hstep, if_pos hrc1]
      · rw [hstep, hrc1]
        show (SubscriptionTracker.mk
            (t.subscriptions.filter (fun p => p.1 ≠ uri))).refcount uri = 1 - 1
        unfold SubscriptionTracker.refcount SubscriptionTracker.Subscribers
        rw [strLookup_filter_ne]
        rfl
    · have hge : 2 ≤ sessions.length := by omega
      have hne : ¬ (sessions.filter (fun s => s ≠ sid)).isEmpty = true := by
        rw [List.isEmpty_iff]
        intro hnil
        have := congrArg List.length hnil
        rw [hflen] at this
        simp at this
        omega
      have huns' : t.Unsubscribe uri sid
          = ((sessions.filter (fun s => s ≠ sid)).length,
             t.store uri (sessions.filter (fun s => s ≠ sid))) := by
        rw [huns, if_neg hne]
      have hstep : subStep t (SubEvent.unsubscribe sid uri)
          = (t.store uri (sessions.filter (fun s => s ≠ sid)),
             [SubOut.localReply sid]) := by
        rw [subStep_unsubscribe, huns']
        show (if (sessions.filter (fun s => s ≠ sid)).length > 0
            then (t.store uri (sessions.filter (fun s => s ≠ sid)),
                  [SubOut.localReply sid])
            else (t.store uri (sessions.filter (fun s => s ≠ sid)),
                  [SubOut.fwdUnsubscribe uri]))
          = (t.store uri (sessions.filter (fun s => s ≠ sid)),
             [SubOut.localReply sid])
        rw [if_pos (by rw [hflen]; omega)]
      have hrcn1 : ¬ t.refcount uri = 1 := by rw [hrc]; omega
      constructor
      · rw [hstep, if_neg hrcn1]
      · rw [hstep, hrc]
        show (t.store uri (sessions.filter (fun s => s ≠ sid))).refcount uri
          = sessions.length - 1
        unfold SubscriptionTracker.refcount SubscriptionTracker.Subscribers
        rw [strLookup_store, Option.getD_some, hflen]
  · -- disconnect: orphan characterization
    rw [subStep_disconnect]
    have hiff := removeSessionList_orphans_iff sid t.subscriptions hwf.1 uri
    constructor
    · intro hm
      have hu : uri ∈ (SubscriptionTracker.removeSessionList sid t.subscriptions).1 := by
        rcases List.mem_map.mp hm with ⟨u, hu, he⟩
        injection he with he
        exact he ▸ hu
      obtain ⟨ss, hss, hsmem, hfil⟩ := hiff.mp hu
      have hnodup : ss.Nodup := (hwf.2 _ (strLookup_mem hss)).1
      have hss1 : ss = [sid] := (nodup_mem_filter_nil hnodup hsmem).mp hfil
      constructor
      · show sid ∈ (strLookup t.subscriptions uri).getD []
        rw [hss, hss1]
        simp
      · show ((strLookup t.subscriptions uri).getD []).length = 1
        rw [hss, hss1]
        rfl
    · rintro ⟨hsmem, hrc1⟩
      obtain ⟨ss, hss⟩ : ∃ ss, strLookup t.subscriptions uri = some ss := by
        unfold SubscriptionTracker.Subscribers at hsmem
        cases h : strLookup t.subscriptions uri with
        | none => rw [h] at hsmem; simp at hsmem
        | some ss => exact ⟨ss, rfl⟩
      have hsmem' : sid ∈ ss := by
        unfold SubscriptionTracker.Subscribers at hsmem
        rw [hss] at hsmem
        exact hsmem
      have hlen : ss.length = 1 := by
        unfold SubscriptionTracker.refcount SubscriptionTracker.Subscribers at hrc1
        rw [hss] at hrc1
        exact hrc1
      have hss1 : ss = [sid] := by
        cases ss with
        | nil => simp at hsmem'
        | cons a rest =>
          simp only [List.length_cons] at hlen
          have : rest = [] := List.length_eq_zero.mp (by omega)
          subst this
          simp at hsmem'
          rw [hsmem']
      have hfil : ss.filter (fun s => s ≠ sid) = [] := by
        rw [hss1]; simp
      exact List.mem_map.mpr
        ⟨uri, hiff.mpr ⟨ss, hss, hsmem', hfil⟩, rfl⟩
  · intro s
    rw [subStep_disconnect]
    intro hm
    rcases List.mem_map.mp hm with ⟨u, _, he⟩
    exact SubOut.noConfusion he

/-- Witness for C4 at a concrete well-formed tracker with two subscribers of
one uri and a sole subscriber of another. -/
theorem c4_refcount_discipline_witness :
    (SubscriptionTracker.mk
        [("file:///x", ["A", "B"]), ("file:///y", ["A"])]).WF ∧
    (("A" ∉ (SubscriptionTracker.mk
        [("file:///x", ["A", "B"]), ("file:///y", ["A"])]).Subscribers "file:///x" →
      ((subStep (SubscriptionTracker.mk
          [("file:///x", ["A", "B"]), ("file:///y", ["A"])])
          (SubEvent.subscribe "A" "file:///x")).2
        = if (SubscriptionTracker.mk
            [("file:///x", ["A", "B"]), ("file:///y", ["A"])]).refcount "file:///x" = 0
          then [SubOut.fwdSubscribe "file:///x"]
          else [SubOut.localReply "A"]) ∧
      (subStep (SubscriptionTracker.mk
          [("file:///x", ["A", "B"]), ("file:///y", ["A"])])
          (SubEvent.subscribe "A" "file:///x")).1.refcount "file:///x"
        = (SubscriptionTracker.mk
            [("file:///x", ["A", "B"]), ("file:///y", ["A"])]).refcount "file:///x" + 1) ∧
    ("A" ∈ (SubscriptionTracker.mk
        [("file:///x", ["A", "B"]), ("file:///y", ["A"])]).Subscribers "file:///x" →
      ((subStep (SubscriptionTracker.mk
          [("file:///x", ["A", "B"]), ("file:///y", ["A"])])
          (SubEvent.unsubscribe "A" "file:///x")).2
        = if (SubscriptionTracker.mk
            [("file:///x", ["A", "B"]), ("file:///y", ["A"])]).refcount "file:///x" = 1
          then [SubOut.fwdUnsubscribe "file:///x"]
          else [SubOut.localReply "A"]) ∧
      (subStep (SubscriptionTracker.mk
          [("file:///x", ["A", "B"]), ("file:///y", ["A"])])
          (SubEvent.unsubscribe "A" "file:///x")).1.refcount "file:///x"
        = (SubscriptionTracker.mk
            [("file:///x", ["A", "B"]), ("file:///y", ["A"])]).refcount "file:///x" - 1) ∧
    ((SubOut.fwdUnsubscribe "file:///x" ∈
        (subStep (SubscriptionTracker.mk
          [("file:///x", ["A", "B"]), ("file:///y", ["A"])])
          (SubEvent.disconnect "A")).2 ↔
        ("A" ∈ (SubscriptionTracker.mk
          [("file:///x", ["A", "B"]), ("file:///y", ["A"])]).Subscribers "file:///x" ∧
         (SubscriptionTracker.mk
          [("file:///x", ["A", "B"]), ("file:///y", ["A"])]).refcount "file:///x" = 1)) ∧
      ∀ s, SubOut.localReply s ∉
        (subStep (SubscriptionTracker.mk
          [("file:///x", ["A", "B"]), ("file:///y", ["A"])])
          (SubEvent.disconnect "A")).2)) :=
  have hwf : (SubscriptionTracker.mk
      [("file:///x", ["A", "B"]), ("file:///y", ["A"])]).WF := by
    constructor
    · simp [SubscriptionTracker.WF]
    · intro p hp
      simp only [List.mem_cons] at hp
      rcases hp with h | h | h <;> first
        | (subst h; exact ⟨by simp, by simp⟩)
        | simp at h
  ⟨hwf,
   c4_refcount_discipline
     (SubscriptionTracker.mk [("file:///x", ["A", "B"]), ("file:///y", ["A"])])
     hwf "A" "file:///x"⟩

/-! ### roots/list fan-out merge (C3) -/

theorem dedupGo_cons (seen : List String) (root : Json) (rest : List Json) :
    rootsAggregator.dedupGo seen (root :: rest)
      = match rootURI root with
        | some u =>
          if u ∈ seen then rootsAggregator.dedupGo seen rest
          else root :: rootsAggregator.dedupGo (u :: seen) rest
        | none => rootsAggregator.dedupGo seen rest := rfl

theorem urisOf_append (l1 l2 : List Json) :
    urisOf (l1 ++ l2) = urisOf l1 ++ urisOf l2 := by
  simp [urisOf, List.filterMap_append]

theorem mem_urisOf_dedupGo (l : List Json) :
    ∀ (seen : List String) (x : String),
      x ∈ urisOf (rootsAggregator.dedupGo seen l) ↔
        x ∈ urisOf l ∧ x ∉ seen := by
  induction l with
  | nil => intro seen x; simp [rootsAggregator.dedupGo, urisOf]
  | cons root rest ih =>
    intro seen x
    rw [dedupGo_cons]
    cases hru : rootURI root with
    | none =>
      dsimp only
      simp only [urisOf, List.filterMap_cons, hru]
      exact ih seen x
    | some u =>
      dsimp only
      by_cases hs : u ∈ seen
      · rw [if_pos hs]
        simp only [urisOf, List.filterMap_cons, hru, List.mem_cons]
        rw [show (List.filterMap rootURI
            (rootsAggregator.dedupGo seen rest) : List String)
            = urisOf (rootsAggregator.dedupGo seen rest) from rfl]
        rw [ih seen x]
        constructor
        · rintro ⟨h1, h2⟩
          exact ⟨Or.inr h1, h2⟩
        · rintro ⟨h1 | h1, h2⟩
          · exact absurd (h1 ▸ hs) h2
          · exact ⟨h1, h2⟩
      · rw [if_neg hs]
        simp only [urisOf, List.filterMap_cons, hru, List.mem_cons]
        rw [show (List.filterMap rootURI
            (rootsAggregator.dedupGo (u :: seen) rest) : List String)
            = urisOf (rootsAggregator.dedupGo (u :: seen) rest) from rfl]
        rw [ih (u :: seen) x]
        simp only [List.mem_cons]
        constructor
        · rintro (h | ⟨h1, h2⟩)
          · exact ⟨Or.inl h, h ▸ hs⟩
          · exact ⟨Or.inr h1, fun hx => h2 (Or.inr hx)⟩
        · rintro ⟨h1 | h1, h2⟩
          · exact Or.inl h1
          · by_cases hxu : x = u
            · exact Or.inl hxu
            · exact Or.inr ⟨h1, fun hx => by
                cases hx with
                | inl h => exact hxu h
                | inr h => exact h2 h⟩

theorem urisOf_dedupGo_nodup (l : List Json) :
    ∀ seen : List String,
      (urisOf (rootsAggregator.dedupGo seen l)).Nodup ∧
      ∀ x ∈ urisOf (rootsAggregator.dedupGo seen l), x ∉ seen := by
  induction l with
  | nil =>
    intro seen
    constructor
    · simp [rootsAggregator.dedupGo, urisOf]
    · intro x hx
      simp [rootsAggregator.dedupGo, urisOf] at hx
  | cons root rest ih =>
    intro seen
    rw [dedupGo_cons]
    cases hru : rootURI root with
    | none => exact ih seen
    | some u =>
      dsimp only
      by_cases hs : u ∈ seen
      · rw [if_pos hs]
        exact ih seen
      · rw [if_neg hs]
        obtain ⟨hnd, hni⟩ := ih (u :: seen)
        constructor
        · simp only [urisOf, List.filterMap_cons, hru]
          rw [List.nodup_cons]
          exact ⟨fun hmem => (hni u hmem) (List.mem_cons_self _ _), hnd⟩
        · intro x hx
          simp only [urisOf, List.filterMap_cons, hru, List.mem_cons] at hx
          cases hx with
          | inl h => exact h ▸ hs
          | inr h =>
            intro hxs
            exact hni x h (List.mem_cons_of_mem _ hxs)

theorem dedupGo_subset (l : List Json) :
    ∀ seen : List String, ∀ root ∈ rootsAggregator.dedupGo seen l, root ∈ l := by
  induction l with
  | nil => intro seen root h; simp [rootsAggregator.dedupGo] at h
  | cons r rest ih =>
    intro seen root h
    rw [dedupGo_cons] at h
    cases hru : rootURI r with
    | none =>
      rw [hru] at h
      exact List.mem_cons_of_mem _ (ih seen root h)
    | some u =>
      rw [hru] at h
      dsimp only at h
      split_ifs at h with hs
      · exact List.mem_cons_of_mem _ (ih seen root h)
      · cases List.mem_cons.mp h with
        | inl he => exact he ▸ List.mem_cons_self _ _
        | inr hm => exact List.mem_cons_of_mem _ (ih (u :: seen) root hm)

theorem mem_parsedRootsJoin (rs : List (Option Json)) (x : Json) :
    x ∈ parsedRootsJoin rs ↔ ∃ r ∈ rs, x ∈ parseRootsResult r := by
  induction rs with
  | nil => simp [parsedRootsJoin]
  | cons r rest ih =>
    rw [show parsedRootsJoin (r :: rest)
        = parseRootsResult r ++ parsedRootsJoin rest from rfl]
    simp [List.mem_append, ih]

theorem mem_urisOf_parsedRootsJoin (rs : List (Option Json)) (x : String) :
    x ∈ urisOf (parsedRootsJoin rs) ↔
      ∃ r ∈ rs, x ∈ urisOf (parseRootsResult r) := by
  induction rs with
  | nil => simp [parsedRootsJoin, urisOf]
  | cons r rest ih =>
    rw [show parsedRootsJoin (r :: rest)
        = parseRootsResult r ++ parsedRootsJoin rest from rfl]
    rw [urisOf_append]
    simp [List.mem_append, ih]

theorem collect_not_done (a : rootsAggregator) (r : Option Json)
    (h : a.done = false) :
    a.collect r
      = ({ a with roots := a.roots ++ parseRootsResult r,
                  remaining := a.remaining - 1 },
         decide (a.remaining - 1 ≤ 0)) := by
  unfold rootsAggregator.collect
  rw [if_neg (by simp [h])]

theorem collectList_spec (rs : List (Option Json)) :
    ∀ a : rootsAggregator, a.done = false →
      (collectList a rs).done = false ∧
      (collectList a rs).remaining = a.remaining - rs.length ∧
      (collectList a rs).roots = a.roots ++ parsedRootsJoin rs ∧
      (collectList a rs).serverID = a.serverID := by
  induction rs with
  | nil =>
    intro a h
    refine ⟨h, by simp [collectList], by simp [collectList, parsedRootsJoin], rfl⟩
  | cons r rest ih =>
    intro a h
    have hc : collectList a (r :: rest)
        = collectList { a with roots := a.roots ++ parseRootsResult r,
                               remaining := a.remaining - 1 } rest := by
      show collectList (a.collect r).1 rest = _
      rw [collect_not_done a r h]
    rw [hc]
    obtain ⟨h1, h2, h3, h4⟩ :=
      ih { a with roots := a.roots ++ parseRootsResult r,
                  remaining := a.remaining - 1 } h
    refine ⟨h1, ?_, ?_, h4⟩
    · rw [h2]
      show a.remaining - 1 - (rest.length : Int)
        = a.remaining - ((r :: rest).length : Int)
      simp only [List.length_cons]
      push_cast
      ring
    · rw [h3]
      show (a.roots ++ parseRootsResult r) ++ parsedRootsJoin rest
        = a.roots ++ (parseRootsResult r ++ parsedRootsJoin rest)
      rw [List.append_assoc]

theorem finalize_not_done (a : rootsAggregator) (h : a.done = false) :
    a.finalize
      = ({ a with done := true },
         some { jsonrpc := "2.0", id := a.serverID, method := "",
                params := none,
                result := some (Json.obj [("roots",
                  Json.arr (rootsAggregator.dedupRoots a.roots))]),
                error := none }) := by
  unfold rootsAggregator.finalize
  rw [if_neg (by simp [h])]

theorem finalize_done (a : rootsAggregator) (h : a.done = true) :
    a.finalize = (a, none) := by
  unfold rootsAggregator.finalize
  rw [if_pos h]

theorem finalize_sets_done (a : rootsAggregator) :
    (a.finalize).1.done = true := by
  unfold rootsAggregator.finalize
  by_cases h : a.done = true
  · rw [if_pos h]; exact h
  · rw [if_neg h]

theorem fanoutLoop_sends (l : List SessionInfo) :
    ∀ mapper : IDMapper,
      (fanoutLoop mapper l).2.2.map Prod.fst = l.map SessionInfo.sid ∧
      ∀ p ∈ (fanoutLoop mapper l).2.2, p.2.method = "roots/list" := by
  induction l with
  | nil => intro m; exact ⟨rfl, by intro p hp; simp [fanoutLoop] at hp⟩
  | cons s rest ih =>
    intro m
    have heq : fanoutLoop m (s :: rest)
        = ((fanoutLoop { m with counter := m.counter + 1 } rest).1,
           (m.counter + 1)
             :: (fanoutLoop { m with counter := m.counter + 1 } rest).2.1,
           (s.sid, { jsonrpc := "2.0", id := some (Json.num (m.counter + 1)),
                     method := "roots/list", params := none, result := none,
                     error := none })
             :: (fanoutLoop { m with counter := m.counter + 1 } rest).2.2) := rfl
    rw [heq]
    obtain ⟨h1, h2⟩ := ih { m with counter := m.counter + 1 }
    constructor
    · simp only [List.map_cons, h1]
    · intro p hp
      cases List.mem_cons.mp hp with
      | inl h => rw [h]
      | inr h => exact h2 p h

theorem handleRootsList_no_capable (msg : Message) (sessions : List SessionInfo)
    (mapper : IDMapper) (h : sessions.filter (fun s => s.Roots) = []) :
    handleRootsList msg sessions mapper
      = { idMapper := mapper, pendingFanout := [], agg := none, sends := [],
          serverReply := some
            { jsonrpc := "2.0", id := msg.id, method := "", params := none,
              result := some (Json.obj [("roots", Json.arr [])]),
              error := none } } := by
  unfold handleRootsList
  rw [h]
  rfl

theorem handleRootsList_capable (msg : Message) (sessions : List SessionInfo)
    (mapper : IDMapper)
    (h : sessions.filter (fun s => s.Roots) ≠ []) :
    handleRootsList msg sessions mapper
      = { idMapper := (fanoutLoop mapper (sessions.filter (fun s => s.Roots))).1,
          pendingFanout :=
            (fanoutLoop mapper (sessions.filter (fun s => s.Roots))).2.1,
          agg := some { serverID := msg.id,
                        remaining :=
                          Int.ofNat (sessions.filter (fun s => s.Roots)).length,
                        roots := [], done := false },
          sends := (fanoutLoop mapper (sessions.filter (fun s => s.Roots))).2.2,
          serverReply := none } := by
  unfold handleRootsList
  rw [if_neg (by simp [List.isEmpty_iff, h])]

/-- Claim C3: a server `roots/list` with no roots-capable session is answered
immediately with an empty roots array under the server's original id and no
session sees anything; with capable sessions, exactly one synthesized
`roots/list` goes to each capable session, and — once every capable session's
response has been collected — finalize produces exactly one reply to the
server, under the server's original id, whose roots array carries each uri of
the union of the sessions' `result.roots` arrays exactly once (every element
coming from some session's array); a second finalize produces nothing. -/
theorem c3_roots_fanout (msg : Message) (sessions : List SessionInfo)
    (mapper : IDMapper) (rs : List (Option Json))
    (hlen : rs.length = (sessions.filter (fun s => s.Roots)).length) :
    ((sessions.filter (fun s => s.Roots)) = [] →
      (handleRootsList msg sessions mapper).sends = [] ∧
      (handleRootsList msg sessions mapper).serverReply
        = some { jsonrpc := "2.0", id := msg.id, method := "", params := none,
                 result := some (Json.obj [("roots", Json.arr [])]),
                 error := none }) ∧
    ((sessions.filter (fun s => s.Roots)) ≠ [] →
      (handleRootsList msg sessions mapper).serverReply = none ∧
      (handleRootsList msg sessions mapper).sends.map Prod.fst
        = (sessions.filter (fun s => s.Roots)).map SessionInfo.sid ∧
      (∀ p ∈ (handleRootsList msg sessions mapper).sends,
        p.2.method = "roots/list") ∧
      (handleRootsList msg sessions mapper).agg
        = some { serverID := msg.id,
                 remaining :=
                   Int.ofNat (sessions.filter (fun s => s.Roots)).length,
                 roots := [], done := false } ∧
      (collectList
          { serverID := msg.id,
            remaining := Int.ofNat (sessions.filter (fun s => s.Roots)).length,
            roots := [], done := false } rs).remaining = 0 ∧
      ∃ aggF rootsArr,
        (collectList
            { serverID := msg.id,
              remaining :=
                Int.ofNat (sessions.filter (fun s => s.Roots)).length,
              roots := [], done := false } rs).finalize
          = (aggF, some
              { jsonrpc := "2.0", id := msg.id, method := "", params := none,
                result := some (Json.obj [("roots", Json.arr rootsArr)]),
                error := none }) ∧
        (∀ x, x ∈ urisOf rootsArr ↔
          ∃ r ∈ rs, x ∈ urisOf (parseRootsResult r)) ∧
        (urisOf rootsArr).Nodup ∧
        (∀ root ∈ rootsArr, ∃ r ∈ rs, root ∈ parseRootsResult r) ∧
        aggF.finalize = (aggF, none)) := by
  constructor
  · intro h
    rw [handleRootsList_no_capable msg sessions mapper h]
    exact ⟨rfl, rfl⟩
  · intro hne
    rw [handleRootsList_capable msg sessions mapper hne]
    obtain ⟨hsends1, hsends2⟩ :=
      fanoutLoop_sends (sessions.filter (fun s => s.Roots)) mapper
    obtain ⟨c, hc⟩ : ∃ c, collectList
        { serverID := msg.id,
          remaining := Int.ofNat (sessions.filter (fun s => s.Roots)).length,
          roots := [], done := false } rs = c := ⟨_, rfl⟩
    obtain ⟨hdone, hrem, hroots, hsid⟩ :=
      collectList_spec rs
        { serverID := msg.id,
          remaining := Int.ofNat (sessions.filter (fun s => s.Roots)).length,
          roots := [], done := false } rfl
    rw [hc] at hdone hrem hroots hsid
    have hsid2 : c.serverID = msg.id := hsid
    have hroots2 : c.roots = parsedRootsJoin rs := by
      rw [hroots]
      rfl
    have hrem2 : c.remaining
        = Int.ofNat (sessions.filter (fun s => s.Roots)).length
          - (rs.length : Int) := hrem
    refine ⟨rfl, hsends1, hsends2, rfl, ?_, ?_⟩
    · rw [hc]
      rw [Int.ofNat_eq_natCast] at hrem2
      rw [hlen] at hrem2
      omega
    · refine ⟨rootsAggregator.mk msg.id c.remaining (parsedRootsJoin rs) true,
        rootsAggregator.dedupRoots (parsedRootsJoin rs), ?_, ?_, ?_, ?_, ?_⟩
      · rw [hc, finalize_not_done c hdone, hsid2, hroots2]
      · intro x
        rw [show rootsAggregator.dedupRoots (parsedRootsJoin rs)
            = rootsAggregator.dedupGo [] (parsedRootsJoin rs) from rfl]
        rw [mem_urisOf_dedupGo]
        rw [mem_urisOf_parsedRootsJoin]
        simp
      · rw [show rootsAggregator.dedupRoots (parsedRootsJoin rs)
            = rootsAggregator.dedupGo [] (parsedRootsJoin rs) from rfl]
        exact (urisOf_dedupGo_nodup (parsedRootsJoin rs) []).1
      · intro root hroot
        rw [show rootsAggregator.dedupRoots (parsedRootsJoin rs)
            = rootsAggregator.dedupGo [] (parsedRootsJoin rs) from rfl] at hroot
        exact (mem_parsedRootsJoin rs root).mp
          (dedupGo_subset (parsedRootsJoin rs) [] root hroot)
      · exact finalize_done _ rfl

/-- Witness for C3: one roots-capable session answering with a single root. -/
theorem c3_roots_fanout_witness :
    (([some (Json.obj [("roots", Json.arr [Json.obj [("uri", Json.str "file:///a")]])])] : List (Option Json)).length
      = ([SessionInfo.mk "A" true false].filter (fun s => s.Roots)).length) ∧
    (
    (([SessionInfo.mk "A" true false].filter (fun s => s.Roots)) = [] →
      (handleRootsList (Message.mk "2.0" (some (Json.num 5)) "roots/list" none none none) [SessionInfo.mk "A" true false] IDMapper.new).sends = [] ∧
      (handleRootsList (Message.mk "2.0" (some (Json.num 5)) "roots/list" none none none) [SessionInfo.mk "A" true false] IDMapper.new).serverReply
        = some { jsonrpc := "2.0", id := (Message.mk "2.0" (some (Json.num 5)) "roots/list" none none none).id, method := "", params := none,
                 result := some (Json.obj [("roots", Json.arr [])]),
                 error := none }) ∧
    (([SessionInfo.mk "A" true false].filter (fun s => s.Roots)) ≠ [] →
      (handleRootsList (Message.mk "2.0" (some (Json.num 5)) "roots/list" none none none) [SessionInfo.mk "A" true false] IDMapper.new).serverReply = none ∧
      (handleRootsList (Message.mk "2.0" (some (Json.num 5)) "roots/list" none none none) [SessionInfo.mk "A" true false] IDMapper.new).sends.map Prod.fst
        = ([SessionInfo.mk "A" true false].filter (fun s => s.Roots)).map SessionInfo.sid ∧
      (∀ p ∈ (handleRootsList (Message.mk "2.0" (some (Json.num 5)) "roots/list" none none none) [SessionInfo.mk "A" true false] IDMapper.new).sends,
        p.2.method = "roots/list") ∧
      (handleRootsList (Message.mk "2.0" (some (Json.num 5)) "roots/list" none none none) [SessionInfo.mk "A" true false] IDMapper.new).agg
        = some { serverID := (Message.mk "2.0" (some (Json.num 5)) "roots/list" none none none).id,
                 remaining :=
                   Int.ofNat ([SessionInfo.mk "A" true false].filter (fun s => s.Roots)).length,
                 roots := [], done := false } ∧
      (collectList
          { serverID := (Message.mk "2.0" (some (Json.num 5)) "roots/list" none none none).id,
            remaining := Int.ofNat ([SessionInfo.mk "A" true false].filter (fun s => s.Roots)).length,
            roots := [], done := false } [some (Json.obj [("roots", Json.arr [Json.obj [("uri", Json.str "file:///a")]])])]).remaining = 0 ∧
      ∃ aggF rootsArr,
        (collectList
            { serverID := (Message.mk "2.0" (some (Json.num 5)) "roots/list" none none none).id,
              remaining :=
                Int.ofNat ([SessionInfo.mk "A" true false].filter (fun s => s.Roots)).length,
              roots := [], done := false } [some (Json.obj [("roots", Json.arr [Json.obj [("uri", Json.str "file:///a")]])])]).finalize
          = (aggF, some
              { jsonrpc := "2.0", id := (Message.mk "2.0" (some (Json.num 5)) "roots/list" none none none).id, method := "", params := none,
                result := some (Json.obj [("roots", Json.arr rootsArr)]),
                error := none }) ∧
        (∀ x, x ∈ urisOf rootsArr ↔
          ∃ r ∈ [some (Json.obj [("roots", Json.arr [Json.obj [("uri", Json.str "file:///a")]])])], x ∈ urisOf (parseRootsResult r)) ∧
        (urisOf rootsArr).Nodup ∧
        (∀ root ∈ rootsArr, ∃ r ∈ [some (Json.obj [("roots", Json.arr [Json.obj [("uri", Json.str "file:///a")]])])], root ∈ parseRootsResult r) ∧
        aggF.finalize = (aggF, none))) :=
  ⟨rfl, c3_roots_fanout (Message.mk "2.0" (some (Json.num 5)) "roots/list" none none none) [SessionInfo.mk "A" true false] IDMapper.new [some (Json.obj [("roots", Json.arr [Json.obj [("uri", Json.str "file:///a")]])])] rfl⟩

end Mcpl
